import Mathlib

/-
Verification of the Motion Sculpture pipeline (src/main.js, the second
MotionSculpture variant in that file: the multi-stroke version with
painting toggle, color picker, deadzone/ZVU physics and per-stroke
ribbon geometry — the variant all claim line references point into).

JavaScript numbers are modelled as real numbers (ℝ).  The THREE.js
vector/quaternion helpers the source calls are embedded by their actual
library semantics; in particular THREE.Vector3.normalize divides by
`length() || 1`, so normalizing a zero-length vector returns the zero
vector rather than NaN.

Mutable instance state of the MotionSculpture class is modelled as an
explicit `State` record threaded through the event handlers and the
animation-tick functions.  Two extra fields (`fed`, `trace`) are pure
proof instrumentation: they record the arguments of `addPoint` calls and
the per-tick log entry plus post-tick speed.  They are appended to but
never read by any transition function, so they do not affect behaviour.
-/

noncomputable section
open Classical

namespace Motion

/-- Coordinates of a THREE.Vector3. -/
@[ext] structure Vec3 where
  x : ℝ
  y : ℝ
  z : ℝ

/-- Components of a THREE.Quaternion. -/
@[ext] structure Quat where
  x : ℝ
  y : ℝ
  z : ℝ
  w : ℝ

def vzero : Vec3 := ⟨0, 0, 0⟩

def quatIdentity : Quat := ⟨0, 0, 0, 1⟩

def vadd (a b : Vec3) : Vec3 := ⟨a.x + b.x, a.y + b.y, a.z + b.z⟩

def vsub (a b : Vec3) : Vec3 := ⟨a.x - b.x, a.y - b.y, a.z - b.z⟩

/-- THREE.Vector3.multiplyScalar. -/
def smul (c : ℝ) (v : Vec3) : Vec3 := ⟨c * v.x, c * v.y, c * v.z⟩

/-- THREE.Vector3.cross. -/
def cross (a b : Vec3) : Vec3 :=
  ⟨a.y * b.z - a.z * b.y, a.z * b.x - a.x * b.z, a.x * b.y - a.y * b.x⟩

/-- THREE.Vector3.length: sqrt(x*x + y*y + z*z). -/
def vlen (v : Vec3) : ℝ := Real.sqrt (v.x * v.x + v.y * v.y + v.z * v.z)

/-- THREE.Vector3.normalize: divideScalar(length() || 1).  A zero-length
vector is divided by 1, i.e. returned unchanged (no NaN). -/
def threeNormalize (v : Vec3) : Vec3 :=
  smul (if vlen v = 0 then 1 else vlen v)⁻¹ v

/-- THREE.Vector3.distanceTo. -/
def distanceTo (a b : Vec3) : ℝ := vlen (vsub a b)

/-- THREE.Vector3.lerp(v, alpha): this += (v - this) * alpha. -/
def lerp (a b : Vec3) (t : ℝ) : Vec3 :=
  ⟨a.x + (b.x - a.x) * t, a.y + (b.y - a.y) * t, a.z + (b.z - a.z) * t⟩

/-- THREE.MathUtils.clamp(value, min, max) = Math.max(min, Math.min(max, value)). -/
def clamp (v lo hi : ℝ) : ℝ := max lo (min hi v)

/-- THREE.Vector3.applyQuaternion. -/
def applyQuaternion (v : Vec3) (q : Quat) : Vec3 :=
  let tx := 2 * (q.y * v.z - q.z * v.y)
  let ty := 2 * (q.z * v.x - q.x * v.z)
  let tz := 2 * (q.x * v.y - q.y * v.x)
  ⟨v.x + q.w * tx + (q.y * tz - q.z * ty),
   v.y + q.w * ty + (q.z * tx - q.x * tz),
   v.z + q.w * tz + (q.x * ty - q.y * tx)⟩

/-- THREE.Quaternion.setFromEuler for axis order YXZ (the order the
source selects at `this._tmpEuler.set(beta, alpha, -gamma, 'YXZ')`). -/
def setFromEulerYXZ (ex ey ez : ℝ) : Quat :=
  let c1 := Real.cos (ex / 2)
  let c2 := Real.cos (ey / 2)
  let c3 := Real.cos (ez / 2)
  let s1 := Real.sin (ex / 2)
  let s2 := Real.sin (ey / 2)
  let s3 := Real.sin (ez / 2)
  ⟨s1 * c2 * c3 + c1 * s2 * s3,
   c1 * s2 * c3 - s1 * c2 * s3,
   c1 * c2 * s3 - s1 * s2 * c3,
   c1 * c2 * c3 + s1 * s2 * s3⟩

@[simp] lemma vadd_vzero (v : Vec3) : vadd v vzero = v := by
  simp [vadd, vzero]

@[simp] lemma vzero_vadd (v : Vec3) : vadd vzero v = v := by
  simp [vadd, vzero]

@[simp] lemma smul_vzero (c : ℝ) : smul c vzero = vzero := by
  simp [smul, vzero]

@[simp] lemma vlen_vzero : vlen vzero = 0 := by
  simp [vlen, vzero]

@[simp] lemma threeNormalize_vzero : threeNormalize vzero = vzero := by
  simp [threeNormalize]

@[simp] lemma applyQuaternion_vzero (q : Quat) : applyQuaternion vzero q = vzero := by
  simp [applyQuaternion, vzero]

@[simp] lemma applyQuaternion_identity (v : Vec3) : applyQuaternion v quatIdentity = v := by
  simp [applyQuaternion, quatIdentity]

lemma vlen_nonneg (v : Vec3) : 0 ≤ vlen v := Real.sqrt_nonneg _

/-- Length of a vector on the x axis. -/
lemma vlen_xaxis (t : ℝ) : vlen ⟨t, 0, 0⟩ = |t| := by
  simp only [vlen]
  rw [show t * t + 0 * 0 + 0 * 0 = t * t by ring]
  exact Real.sqrt_mul_self_eq_abs t

lemma vlen_smul (c : ℝ) (v : Vec3) : vlen (smul c v) = |c| * vlen v := by
  simp only [vlen, smul]
  rw [show c * v.x * (c * v.x) + c * v.y * (c * v.y) + c * v.z * (c * v.z)
      = c * c * (v.x * v.x + v.y * v.y + v.z * v.z) by ring]
  rw [Real.sqrt_mul (mul_self_nonneg c), Real.sqrt_mul_self_eq_abs]

lemma vlen_threeNormalize (v : Vec3) (h : vlen v ≠ 0) : vlen (threeNormalize v) = 1 := by
  rw [threeNormalize, if_neg h, vlen_smul, abs_inv,
    abs_of_nonneg (vlen_nonneg v), inv_mul_cancel₀ h]

lemma clamp_nonneg (v hi : ℝ) : 0 ≤ clamp v 0 hi := le_max_left 0 _

lemma clamp_le_hi (v : ℝ) {hi : ℝ} (h : 0 ≤ hi) : clamp v 0 hi ≤ hi :=
  max_le h (min_le_left hi v)

lemma clamp_eq_self {v : ℝ} (h0 : 0 ≤ v) (h1 : v ≤ 1) : clamp v 0 1 = v := by
  rw [clamp, min_eq_right h1, max_eq_right h0]

/-! ## Data model -/

/-- A built ribbon geometry: the `positions` buffer holds two vertices per
point (here kept as a list of Vec3, flattened in the same order the JS code
writes them: v1 then v2 for each point), and the triangle-strip index list
holds two triangles per segment. -/
structure Mesh where
  verts : List Vec3
  tris : List (ℕ × ℕ × ℕ)

/-- One stroke object as pushed by createNewStroke:
points, energies, color, ribbonMesh, coreMesh. -/
structure Stroke where
  points : List Vec3
  energies : List ℝ
  color : ℕ
  ribbonMesh : Option Mesh
  coreMesh : Option Mesh

/-- One recordedData entry: p, energy, isPainting, color, dt. -/
structure LogEntry where
  p : Vec3
  energy : ℝ
  isPainting : Bool
  color : ℕ
  dt : ℝ

/-- The mutable instance state of the MotionSculpture object (the fields the
specified pipeline reads or writes; rendering/DOM/timing fields are out of
scope).  `fed` and `trace` are proof instrumentation: `fed` records the
arguments of every addPoint call, `trace` records each physics tick's log
entry together with the post-tick speed; neither is read by any transition. -/
@[ext] structure State where
  pos : Vec3
  vel : Vec3
  acc : Vec3
  accLowPass : Vec3
  orientation : Quat
  energyAvg : ℝ
  rotationMag : ℝ
  latestAcc : Option Vec3
  stillnessFrames : ℕ
  recordedData : List LogEntry
  strokes : List Stroke
  isPainting : Bool
  currentColor : ℕ
  isRecording : Bool
  isReplaying : Bool
  lastSide : Option Vec3
  fed : List (Vec3 × ℝ)
  trace : List (LogEntry × ℝ)

/-! ## Ribbon Geometry Builder (createRibbonGeometry) -/

/-- Tangent at index i: forward difference to the next point, or backward
difference from the previous point at the end of the sequence. -/
def tangentAt (points : List Vec3) (i : ℕ) : Vec3 :=
  if i < points.length - 1 then
    threeNormalize (vsub (points.getD (i + 1) vzero) (points.getD i vzero))
  else
    threeNormalize (vsub (points.getD i vzero) (points.getD (i - 1) vzero))

/-- Seeding of this._lastSide when it is unset or i = 0: start from (0,1,0),
or (1,0,0) when the tangent is nearly parallel to the y axis, then cross with
the tangent and normalize. -/
def seedSide (t : Vec3) : Vec3 :=
  threeNormalize (cross (if |t.y| > 0.9 then (⟨1, 0, 0⟩ : Vec3) else ⟨0, 1, 0⟩) t)

/-- Parallel transport step: binormal = normalize(tangent × lastSide),
new side = normalize(binormal × tangent). -/
def transportSide (s t : Vec3) : Vec3 :=
  threeNormalize (cross (threeNormalize (cross t s)) t)

/-- The side vector used at loop index i, given the current value of the
shared scratch field this._lastSide.  The JS condition is
`!this._lastSide || i === 0`, so index 0 always re-seeds. -/
def sideAt (sc : Option Vec3) (i : ℕ) (t : Vec3) : Vec3 :=
  match sc, i with
  | none, _ => seedSide t
  | some _, 0 => seedSide t
  | some s, _ + 1 => transportSide s t

/-- The vertex-emitting loop of createRibbonGeometry, threading the scratch
side vector.  For each index it emits v1 = p + side*width and
v2 = p - side*width, width = minWidth + energy * widthMult. -/
def ribbonLoop (points : List Vec3) (energies : List ℝ) (widthMult minWidth : ℝ) :
    Option Vec3 → List ℕ → List Vec3 × Option Vec3
  | sc, [] => ([], sc)
  | sc, i :: rest =>
    let t := tangentAt points i
    let s := sideAt sc i t
    let w := minWidth + energies.getD i 0 * widthMult
    let v1 := vadd (points.getD i vzero) (smul w s)
    let v2 := vsub (points.getD i vzero) (smul w s)
    let r := ribbonLoop points energies widthMult minWidth (some s) rest
    (v1 :: v2 :: r.1, r.2)

/-- The two triangles pushed for segment i: (base, base+1, base+2) and
(base+1, base+3, base+2) with base = 2*i. -/
def segTris (i : ℕ) : List (ℕ × ℕ × ℕ) :=
  [(2 * i, 2 * i + 1, 2 * i + 2), (2 * i + 1, 2 * i + 3, 2 * i + 2)]

/-- Triangle-strip index list: two triangles per segment, count-1 segments. -/
def ribbonIndices (count : ℕ) : List (ℕ × ℕ × ℕ) :=
  ((List.range (count - 1)).map segTris).flatten

/-- createRibbonGeometry(points, energies, widthMult, minWidth), threading the
shared this._lastSide scratch field explicitly. -/
def createRibbonGeometry (sc : Option Vec3) (points : List Vec3) (energies : List ℝ)
    (widthMult minWidth : ℝ) : Mesh × Option Vec3 :=
  let r := ribbonLoop points energies widthMult minWidth sc (List.range points.length)
  (⟨r.1, ribbonIndices points.length⟩, r.2)

/-! Basic facts about the builder. -/

lemma sideAt_zero (sc : Option Vec3) (t : Vec3) : sideAt sc 0 t = seedSide t := by
  cases sc <;> rfl

lemma ribbonLoop_length (points : List Vec3) (energies : List ℝ) (wm mw : ℝ)
    (sc : Option Vec3) (l : List ℕ) :
    (ribbonLoop points energies wm mw sc l).1.length = 2 * l.length := by
  induction l generalizing sc with
  | nil => simp [ribbonLoop]
  | cons i rest ih =>
    simp only [ribbonLoop, List.length_cons]
    rw [ih]
    ring

lemma segTris_flatten_length (k : ℕ) :
    (((List.range k).map segTris).flatten).length = 2 * k := by
  induction k with
  | zero => simp
  | succ m ihm =>
    rw [List.range_succ, List.map_append, List.flatten_append]
    simp only [List.length_append, List.map_cons, List.map_nil, List.flatten_cons,
      List.flatten_nil, List.append_nil, ihm]
    simp [segTris]
    ring

lemma ribbonIndices_length (count : ℕ) : (ribbonIndices count).length = 2 * (count - 1) :=
  segTris_flatten_length (count - 1)

/-- The vertex list produced by the loop does not depend on the incoming
value of the shared scratch side-vector field, provided the loop starts at
index 0 (as every call does, via List.range): index 0 re-seeds the frame.
The outgoing scratch value is likewise independent for a nonempty loop. -/
lemma ribbonLoop_zero_scratch_indep (points : List Vec3) (energies : List ℝ)
    (wm mw : ℝ) (sc1 sc2 : Option Vec3) (rest : List ℕ) :
    ribbonLoop points energies wm mw sc1 (0 :: rest) =
      ribbonLoop points energies wm mw sc2 (0 :: rest) := by
  simp only [ribbonLoop, sideAt_zero]

lemma createRibbonGeometry_scratch_indep (sc1 sc2 : Option Vec3) (points : List Vec3)
    (energies : List ℝ) (wm mw : ℝ) (h : 1 ≤ points.length) :
    createRibbonGeometry sc1 points energies wm mw =
      createRibbonGeometry sc2 points energies wm mw := by
  obtain ⟨n, hn⟩ : ∃ n, points.length = n + 1 :=
    ⟨points.length - 1, (Nat.succ_pred_eq_of_pos h).symm⟩
  simp only [createRibbonGeometry, hn, List.range_succ_eq_map]
  rw [ribbonLoop_zero_scratch_indep points energies wm mw sc1 sc2]

/-! ## Stroke Store (createNewStroke, updateStrokeGeometry, addPoint) -/

/-- createNewStroke: no-op unless recording or replaying; otherwise push a
fresh stroke with the current color. -/
def createNewStroke (st : State) : State :=
  if !st.isRecording && !st.isReplaying then st
  else { st with strokes := st.strokes ++ [⟨[], [], st.currentColor, none, none⟩] }

/-- updateStrokeGeometry: no-op below 2 points; otherwise rebuild the ribbon
geometry (widthMult 1.2, minWidth 0.2) and the core geometry (0.4, 0.1) for
this stroke.  Both createRibbonGeometry calls go through the shared
this._lastSide scratch field, threaded here explicitly. -/
def updateStrokeGeometry (sc : Option Vec3) (s : Stroke) : Stroke × Option Vec3 :=
  if s.points.length < 2 then (s, sc)
  else
    let r := createRibbonGeometry sc s.points s.energies 1.2 0.2
    let c := createRibbonGeometry r.2 s.points s.energies 0.4 0.1
    ({ s with ribbonMesh := some r.1, coreMesh := some c.1 }, c.2)

/-- addPoint(p, e): create a stroke if none exists, reject the point when it
is closer than 0.3 to the current stroke's last point, otherwise append the
point and its energy and rebuild that stroke's geometry.  The
`getLast? = none` branch is unreachable from the call sites (there the state
is recording or replaying, so createNewStroke pushed a stroke); the JS code
would fault there, the model returns the state unchanged.  The `fed` field is
proof instrumentation recording the call's arguments. -/
def addPoint (st0 : State) (p : Vec3) (e : ℝ) : State :=
  let st1 := { st0 with fed := st0.fed ++ [(p, e)] }
  let st := if st1.strokes.length = 0 then createNewStroke st1 else st1
  match st.strokes.getLast? with
  | none => st
  | some s =>
    if 0 < s.points.length ∧ distanceTo p ((s.points.getLast?).getD vzero) < 0.3 then st
    else
      let s1 : Stroke := { s with points := s.points ++ [p], energies := s.energies ++ [e] }
      let r := updateStrokeGeometry st.lastSide s1
      { st with strokes := st.strokes.dropLast ++ [r.1], lastSide := r.2 }

/-! ## Physics (updatePhysics) and sensor handlers -/

/-- The acceleration-conditioning phase at the top of updatePhysics: if a raw
sample is pending, adapt the bias low-pass (0.05 for the first 100 recorded
samples, then 0.005), subtract it, scale by 25 and low-pass with alpha 0.12;
otherwise decay the filtered acceleration aggressively (× 0.5). -/
def condAcc (st : State) : State :=
  match st.latestAcc with
  | some raw =>
    let adaptSpeed : ℝ := if st.recordedData.length < 100 then 0.05 else 0.005
    let accLowPass := lerp st.accLowPass raw adaptSpeed
    let rawAcc := vsub raw accLowPass
    let scale : ℝ := 25.0
    { st with
      accLowPass := accLowPass,
      acc := ⟨st.acc.x + 0.12 * (rawAcc.x * scale - st.acc.x),
              st.acc.y + 0.12 * (rawAcc.y * scale - st.acc.y),
              st.acc.z + 0.12 * (rawAcc.z * scale - st.acc.z)⟩,
      latestAcc := none }
  | none => { st with acc := smul 0.5 st.acc }

def deadzone : ℝ := 0.9

/-- The ZVU judgement: the device counts as stationary when the world-space
acceleration magnitude is below the deadzone and the rotation-rate magnitude
is below 0.2. -/
def isStationaryJudge (worldAcc : Vec3) (rotationMag : ℝ) : Prop :=
  vlen worldAcc < deadzone ∧ rotationMag < 0.2

/-- The deadzone treatment of the world-space acceleration: zero when judged
stationary, otherwise normalize and rescale to length accLen - deadzone*0.8. -/
def processWorldAcc (worldAcc : Vec3) (rotationMag : ℝ) : Vec3 :=
  if isStationaryJudge worldAcc rotationMag then vzero
  else smul (vlen worldAcc - deadzone * 0.8) (threeNormalize worldAcc)

/-- updatePhysics(dt): condition the acceleration, rotate it to world space,
apply the deadzone/ZVU logic (incrementing stillnessFrames and hard-clamping
velocity and filtered acceleration after more than one stationary tick),
integrate velocity (gain dt*50, damping 0.92, snap below 0.2) and position
(gain dt*120), record a log entry while recording, and paint the new position
when painting and moving faster than 0.1.  The trace append mirrors the
recorded entry plus the post-tick speed (instrumentation). -/
def updatePhysics (st0 : State) (dt : ℝ) : State :=
  let energy := clamp st0.energyAvg 0 1
  let stc := condAcc st0
  let worldAcc0 := applyQuaternion stc.acc stc.orientation
  let sts :=
    if isStationaryJudge worldAcc0 stc.rotationMag then
      let st1 := { stc with stillnessFrames := stc.stillnessFrames + 1 }
      if st1.stillnessFrames > 1 then { st1 with vel := vzero, acc := vzero } else st1
    else { stc with stillnessFrames := 0 }
  let worldAcc := processWorldAcc worldAcc0 stc.rotationMag
  let vel1 := smul 0.92 (vadd sts.vel (smul (dt * 50) worldAcc))
  let vel := if vlen vel1 < 0.2 then vzero else vel1
  let pos := vadd sts.pos (smul (dt * 120) vel)
  let stm := { sts with vel := vel, pos := pos }
  let entry : LogEntry :=
    { p := pos, energy := stm.energyAvg, isPainting := stm.isPainting,
      color := stm.currentColor, dt := dt }
  let str :=
    if stm.isRecording then
      { stm with recordedData := stm.recordedData ++ [entry],
                 trace := stm.trace ++ [(entry, vlen vel)] }
    else stm
  if str.isPainting = true ∧ 0.1 < vlen str.vel then addPoint str pos energy else str

/-- Payload of a devicemotion event: acceleration and rotationRate may each
be absent. -/
structure MotionEventData where
  acceleration : Option Vec3
  rotationRate : Option Vec3

/-- The devicemotion handler: ignored unless recording; stores the raw
acceleration sample; updates rotationMag and the smoothed energy average
(energyRaw = |rotationRate| / 60, energyAlpha 0.08). -/
def onDeviceMotion (st : State) (e : MotionEventData) : State :=
  if st.isRecording = false then st
  else
    let st1 :=
      match e.acceleration with
      | some a => { st with latestAcc := some a }
      | none => st
    match e.rotationRate with
    | some rr =>
      let rotationMag := Real.sqrt (rr.x * rr.x + rr.y * rr.y + rr.z * rr.z)
      let energyRaw := rotationMag / 60
      { st1 with rotationMag := rotationMag,
                 energyAvg := st1.energyAvg + 0.08 * (energyRaw - st1.energyAvg) }
    | none => st1

/-- The deviceorientation handler (for a non-null reading): degrees to
radians, Euler (beta, alpha, -gamma) in YXZ order, to quaternion. -/
def onDeviceOrientation (st : State) (alpha beta gamma : ℝ) : State :=
  let q := setFromEulerYXZ (beta * (Real.pi / 180)) (alpha * (Real.pi / 180))
    (-(gamma * (Real.pi / 180)))
  { st with orientation := q }

/-- The paint button handler: toggle isPainting, and start a new stroke when
painting turns on. -/
def paintToggleHandler (st : State) : State :=
  let st1 := { st with isPainting := !st.isPainting }
  if st1.isPainting then createNewStroke st1 else st1

/-- The color picker handler: set the current color, and start a new stroke
when painting. -/
def colorChangeHandler (st : State) (c : ℕ) : State :=
  let st1 := { st with currentColor := c }
  if st1.isPainting then createNewStroke st1 else st1

/-- The asynchronous inputs a live session can receive between and at
animation ticks. -/
inductive DeviceEvent where
  | motion (e : MotionEventData)
  | orientation (alpha beta gamma : ℝ)
  | paintToggle
  | colorChange (c : ℕ)

def applyDeviceEvent (st : State) : DeviceEvent → State
  | .motion e => onDeviceMotion st e
  | .orientation a b g => onDeviceOrientation st a b g
  | .paintToggle => paintToggleHandler st
  | .colorChange c => colorChangeHandler st c

/-- A live-session input: either a device/UI event or an accepted animation
tick (the animate loop runs updatePhysics only while recording). -/
inductive LiveInput where
  | event (e : DeviceEvent)
  | tick (dt : ℝ)

def liveStep (st : State) : LiveInput → State
  | .event e => applyDeviceEvent st e
  | .tick dt => if st.isRecording then updatePhysics st dt else st

/-- The constructor-time state of the object: everything zeroed, painting
true, color 0x00ffff, not recording, not replaying. -/
def initState : State where
  pos := vzero
  vel := vzero
  acc := vzero
  accLowPass := vzero
  orientation := quatIdentity
  energyAvg := 0
  rotationMag := 0
  latestAcc := none
  stillnessFrames := 0
  recordedData := []
  strokes := []
  isPainting := true
  currentColor := 0x00ffff
  isRecording := false
  isReplaying := false
  lastSide := none
  fed := []
  trace := []

/-- resetData(): clear the log, strokes and motion state (accLowPass,
rotationMag, stillnessFrames, latestAcc and the scratch side vector are not
reset by the source). -/
def resetData (st : State) : State :=
  { st with recordedData := [], strokes := [], pos := vzero, vel := vzero,
            acc := vzero, energyAvg := 0 }

/-- startExperience(), after permissions: resetData, recording and painting
on, accLowPass zeroed, a first stroke created.  The instrumentation lists
are cleared here (session scope of the observations). -/
def startExperience (st : State) : State :=
  let st1 := resetData st
  let st2 := { st1 with isRecording := true, isPainting := true,
                        accLowPass := vzero, fed := [], trace := [] }
  createNewStroke st2

/-- A whole live session: startExperience from the given state, then the
inputs in order. -/
def liveRunFrom (st : State) (inputs : List LiveInput) : State :=
  inputs.foldl liveStep (startExperience st)

/-- A live session started from the freshly constructed object. -/
def liveRun (inputs : List LiveInput) : State :=
  liveRunFrom initState inputs

/-! ## Record / replay controller -/

/-- resetExperience(keepRecord): stop everything, clear strokes and motion
state; drop the log unless keepRecord. -/
def resetExperience (st : State) (keepRecord : Bool) : State :=
  let st1 := { st with isRecording := false, isReplaying := false,
                       isPainting := false, strokes := [], pos := vzero,
                       vel := vzero, acc := vzero, energyAvg := 0 }
  if keepRecord then st1 else { st1 with recordedData := [] }

/-- replayExperience(): resetExperience(true) and enter replay from index 0.
The fed instrumentation list is cleared (session scope of the observation). -/
def replayExperience (st : State) : State :=
  { resetExperience st true with isReplaying := true, fed := [] }

/-- One replay animation tick consuming one log entry: on a painting-flag or
color change adopt the entry's flag and color and (when painting) start a new
stroke; copy the entry's position and energy; when painting, addPoint with
the (unclamped) replayed energy. -/
def replayStep (st0 : State) (data : LogEntry) : State :=
  let st1 :=
    if data.isPainting ≠ st0.isPainting ∨ data.color ≠ st0.currentColor then
      let sta := { st0 with isPainting := data.isPainting, currentColor := data.color }
      if sta.isPainting then createNewStroke sta else sta
    else st0
  let st2 := { st1 with pos := data.p, energyAvg := data.energy }
  if st2.isPainting then addPoint st2 st2.pos st2.energyAvg else st2

/-- Replaying a whole log: replayExperience, then one entry per animation
tick until exhaustion. -/
def replayAll (st : State) (log : List LogEntry) : State :=
  log.foldl replayStep (replayExperience st)

/-! ## Physics-tick runs (for the stillness claim) -/

/-- One accepted physics tick preceded by the device events that arrived
since the previous tick. -/
def physTick (st : State) (t : List DeviceEvent × ℝ) : State :=
  updatePhysics (t.1.foldl applyDeviceEvent st) t.2

def physRun (st : State) (ticks : List (List DeviceEvent × ℝ)) : State :=
  ticks.foldl physTick st

/-- The stationarity judgement the integrator would make at this tick: after
applying the tick's events and the acceleration conditioning, the world-space
acceleration magnitude is below the deadzone and the rotation-rate magnitude
below 0.2. -/
def stationaryAt (st : State) (t : List DeviceEvent × ℝ) : Prop :=
  let st1 := condAcc (t.1.foldl applyDeviceEvent st)
  isStationaryJudge (applyQuaternion st1.acc st1.orientation) st1.rotationMag

/-! ## Facts about updateStrokeGeometry and addPoint -/

lemma updateStrokeGeometry_lt_two (sc : Option Vec3) (s : Stroke) (h : s.points.length < 2) :
    updateStrokeGeometry sc s = (s, sc) := by
  rw [updateStrokeGeometry, if_pos h]

lemma updateStrokeGeometry_fst_points (sc : Option Vec3) (s : Stroke) :
    (updateStrokeGeometry sc s).1.points = s.points := by
  unfold updateStrokeGeometry
  split <;> rfl

lemma updateStrokeGeometry_fst_energies (sc : Option Vec3) (s : Stroke) :
    (updateStrokeGeometry sc s).1.energies = s.energies := by
  unfold updateStrokeGeometry
  split <;> rfl

lemma updateStrokeGeometry_fst_color (sc : Option Vec3) (s : Stroke) :
    (updateStrokeGeometry sc s).1.color = s.color := by
  unfold updateStrokeGeometry
  split <;> rfl

/-- With at least one point, the result of updateStrokeGeometry does not
depend on the incoming scratch side vector (both createRibbonGeometry calls
re-seed at index 0). -/
lemma updateStrokeGeometry_scratch_indep (sc1 sc2 : Option Vec3) (s : Stroke)
    (h : 1 ≤ s.points.length) :
    (updateStrokeGeometry sc1 s).1 = (updateStrokeGeometry sc2 s).1 := by
  unfold updateStrokeGeometry
  by_cases h2 : s.points.length < 2
  · rw [if_pos h2, if_pos h2]
  · rw [if_neg h2, if_neg h2]
    rw [createRibbonGeometry_scratch_indep sc1 sc2 s.points s.energies 1.2 0.2 h]

lemma createNewStroke_active_eq (st : State)
    (h : st.isRecording = true ∨ st.isReplaying = true) :
    createNewStroke st =
      { st with strokes := st.strokes ++ [⟨[], [], st.currentColor, none, none⟩] } := by
  unfold createNewStroke
  rcases h with h | h <;> simp [h]

lemma createNewStroke_strokes_active (st : State)
    (h : st.isRecording = true ∨ st.isReplaying = true) :
    (createNewStroke st).strokes = st.strokes ++ [⟨[], [], st.currentColor, none, none⟩] := by
  rw [createNewStroke_active_eq st h]

lemma createNewStroke_isPainting (st : State) :
    (createNewStroke st).isPainting = st.isPainting := by
  unfold createNewStroke
  split <;> rfl

lemma createNewStroke_currentColor (st : State) :
    (createNewStroke st).currentColor = st.currentColor := by
  unfold createNewStroke
  split <;> rfl

lemma createNewStroke_isRecording (st : State) :
    (createNewStroke st).isRecording = st.isRecording := by
  unfold createNewStroke
  split <;> rfl

lemma createNewStroke_isReplaying (st : State) :
    (createNewStroke st).isReplaying = st.isReplaying := by
  unfold createNewStroke
  split <;> rfl

lemma createNewStroke_fed (st : State) : (createNewStroke st).fed = st.fed := by
  unfold createNewStroke
  split <;> rfl

lemma createNewStroke_trace (st : State) : (createNewStroke st).trace = st.trace := by
  unfold createNewStroke
  split <;> rfl

lemma createNewStroke_recordedData (st : State) :
    (createNewStroke st).recordedData = st.recordedData := by
  unfold createNewStroke
  split <;> rfl

lemma createNewStroke_lastSide (st : State) : (createNewStroke st).lastSide = st.lastSide := by
  unfold createNewStroke
  split <;> rfl

/-- The last point the decimation check compares against. -/
def lastPointOf (s : Stroke) : Vec3 := (s.points.getLast?).getD vzero

/-- If the current stroke has points and the new point is within 0.3 of its
last point, addPoint only records the attempted call (instrumentation) and
leaves the whole store — and everything else — unchanged. -/
lemma addPoint_reject (st : State) (ss : List Stroke) (s : Stroke) (p : Vec3) (e : ℝ)
    (hst : st.strokes = ss ++ [s]) (hne : 0 < s.points.length)
    (hd : distanceTo p (lastPointOf s) < 0.3) :
    addPoint st p e = { st with fed := st.fed ++ [(p, e)] } := by
  unfold addPoint
  have hlen : st.strokes.length ≠ 0 := by
    rw [hst]; simp
  have hlast : st.strokes.getLast? = some s := by
    rw [hst]; exact List.getLast?_concat _
  simp only [if_neg hlen]
  rw [show ({ st with fed := st.fed ++ [(p, e)] } : State).strokes.getLast?
      = some s by simpa using hlast]
  dsimp only
  rw [if_pos ⟨hne, show distanceTo p (s.points.getLast?.getD vzero) < 0.3 from hd⟩]

/-- If the decimation test does not fire, addPoint appends the point and its
energy to the last stroke and rebuilds that stroke's geometry. -/
lemma addPoint_accept (st : State) (ss : List Stroke) (s : Stroke) (p : Vec3) (e : ℝ)
    (hst : st.strokes = ss ++ [s])
    (hd : ¬(0 < s.points.length ∧ distanceTo p (lastPointOf s) < 0.3)) :
    addPoint st p e =
      { st with
        fed := st.fed ++ [(p, e)],
        strokes := ss ++ [(updateStrokeGeometry st.lastSide
          { s with points := s.points ++ [p], energies := s.energies ++ [e] }).1],
        lastSide := (updateStrokeGeometry st.lastSide
          { s with points := s.points ++ [p], energies := s.energies ++ [e] }).2 } := by
  unfold addPoint
  have hlen : st.strokes.length ≠ 0 := by
    rw [hst]; simp
  have hlast : st.strokes.getLast? = some s := by
    rw [hst]; exact List.getLast?_concat _
  simp only [if_neg hlen]
  rw [show ({ st with fed := st.fed ++ [(p, e)] } : State).strokes.getLast?
      = some s by simpa using hlast]
  dsimp only
  rw [if_neg (show ¬(0 < s.points.length ∧
      distanceTo p (s.points.getLast?.getD vzero) < 0.3) from hd)]
  have hdrop : st.strokes.dropLast = ss := by
    rw [hst]; exact List.dropLast_concat
  simp only [hdrop]

lemma addPoint_isPainting (st : State) (p : Vec3) (e : ℝ) :
    (addPoint st p e).isPainting = st.isPainting := by
  unfold addPoint
  dsimp only
  repeat' split
  all_goals simp [createNewStroke_isPainting]

lemma addPoint_currentColor (st : State) (p : Vec3) (e : ℝ) :
    (addPoint st p e).currentColor = st.currentColor := by
  unfold addPoint
  dsimp only
  repeat' split
  all_goals simp [createNewStroke_currentColor]

lemma addPoint_isRecording (st : State) (p : Vec3) (e : ℝ) :
    (addPoint st p e).isRecording = st.isRecording := by
  unfold addPoint
  dsimp only
  repeat' split
  all_goals simp [createNewStroke_isRecording]

lemma addPoint_isReplaying (st : State) (p : Vec3) (e : ℝ) :
    (addPoint st p e).isReplaying = st.isReplaying := by
  unfold addPoint
  dsimp only
  repeat' split
  all_goals simp [createNewStroke_isReplaying]

lemma addPoint_fed (st : State) (p : Vec3) (e : ℝ) :
    (addPoint st p e).fed = st.fed ++ [(p, e)] := by
  unfold addPoint
  dsimp only
  repeat' split
  all_goals simp [createNewStroke_fed]

lemma addPoint_recordedData (st : State) (p : Vec3) (e : ℝ) :
    (addPoint st p e).recordedData = st.recordedData := by
  unfold addPoint
  dsimp only
  repeat' split
  all_goals simp [createNewStroke_recordedData]

lemma addPoint_trace (st : State) (p : Vec3) (e : ℝ) :
    (addPoint st p e).trace = st.trace := by
  unfold addPoint
  dsimp only
  repeat' split
  all_goals simp [createNewStroke_trace]

/-- addPoint on an empty store while recording or replaying: a fresh stroke
is created and receives the point (no decimation check fires against an
empty stroke, and a one-point stroke gets no geometry). -/
lemma addPoint_empty_active (st : State) (p : Vec3) (e : ℝ) (h : st.strokes = [])
    (ha : st.isRecording = true ∨ st.isReplaying = true) :
    addPoint st p e =
      { st with fed := st.fed ++ [(p, e)],
                strokes := [⟨[p], [e], st.currentColor, none, none⟩] } := by
  unfold addPoint
  dsimp only
  have hlen : ({ st with fed := st.fed ++ [(p, e)] } : State).strokes.length = 0 := by
    simp [h]
  rw [if_pos hlen]
  have hact : ({ st with fed := st.fed ++ [(p, e)] } : State).isRecording = true ∨
      ({ st with fed := st.fed ++ [(p, e)] } : State).isReplaying = true := by
    simpa using ha
  rw [createNewStroke_active_eq _ hact]
  have h1 : ∀ sc : Option Vec3,
      updateStrokeGeometry sc (⟨[p], [e], st.currentColor, none, none⟩ : Stroke)
        = (⟨[p], [e], st.currentColor, none, none⟩, sc) := fun sc =>
    updateStrokeGeometry_lt_two sc _ (by simp)
  simp [h, h1]

/-- addPoint on an empty store while neither recording nor replaying leaves
the store empty (in the JS source this path would fault; it is unreachable
from the call sites). -/
lemma addPoint_empty_inactive (st : State) (p : Vec3) (e : ℝ) (h : st.strokes = [])
    (hr : st.isRecording = false) (hp : st.isReplaying = false) :
    (addPoint st p e).strokes = [] := by
  unfold addPoint
  dsimp only
  have hlen : ({ st with fed := st.fed ++ [(p, e)] } : State).strokes.length = 0 := by
    simp [h]
  rw [if_pos hlen]
  have hcc : createNewStroke { st with fed := st.fed ++ [(p, e)] }
      = { st with fed := st.fed ++ [(p, e)] } := by
    unfold createNewStroke
    rw [if_pos]
    simp [hr, hp]
  rw [hcc]
  rw [show ({ st with fed := st.fed ++ [(p, e)] } : State).strokes.getLast? = none by simp [h]]
  simpa using h

/-- Two states agreeing on the store, activity flags and color produce the
same store after addPoint — the shared scratch side vector does not leak in
because geometry rebuilds re-seed it. -/
lemma addPoint_strokes_eq (a b : State) (p : Vec3) (e : ℝ)
    (hs : a.strokes = b.strokes) (hrec : a.isRecording = b.isRecording)
    (hrep : a.isReplaying = b.isReplaying) (hcol : a.currentColor = b.currentColor) :
    (addPoint a p e).strokes = (addPoint b p e).strokes := by
  rcases List.eq_nil_or_concat a.strokes with hnil | ⟨ss, s, hcat0⟩
  · have hnilb : b.strokes = [] := hs ▸ hnil
    by_cases hact : a.isRecording = true ∨ a.isReplaying = true
    · rw [addPoint_empty_active a p e hnil hact,
        addPoint_empty_active b p e hnilb (by rw [← hrec, ← hrep]; exact hact)]
      simp [hcol]
    · push_neg at hact
      have h1 : a.isRecording = false := by
        cases hfa : a.isRecording
        · rfl
        · exact absurd hfa hact.1
      have h2 : a.isReplaying = false := by
        cases hfa : a.isReplaying
        · rfl
        · exact absurd hfa hact.2
      rw [addPoint_empty_inactive a p e hnil h1 h2,
        addPoint_empty_inactive b p e hnilb (hrec ▸ h1) (hrep ▸ h2)]
  · have hcat : a.strokes = ss ++ [s] := by simpa using hcat0
    have hcatb : b.strokes = ss ++ [s] := hs ▸ hcat
    by_cases hd : 0 < s.points.length ∧ distanceTo p (lastPointOf s) < 0.3
    · rw [addPoint_reject a ss s p e hcat hd.1 hd.2,
        addPoint_reject b ss s p e hcatb hd.1 hd.2]
      simpa using hs
    · rw [addPoint_accept a ss s p e hcat hd, addPoint_accept b ss s p e hcatb hd]
      simp only
      rw [updateStrokeGeometry_scratch_indep a.lastSide b.lastSide _ (by simp)]

/-! ## Facts about replayStep -/

lemma replayStep_isPainting (st : State) (e : LogEntry) :
    (replayStep st e).isPainting = e.isPainting := by
  unfold replayStep
  dsimp only
  by_cases htr : e.isPainting ≠ st.isPainting ∨ e.color ≠ st.currentColor
  · rw [if_pos htr]
    repeat' split
    all_goals simp [addPoint_isPainting, createNewStroke_isPainting]
  · rw [if_neg htr]
    push_neg at htr
    repeat' split
    all_goals simp [addPoint_isPainting, htr.1]

lemma replayStep_currentColor (st : State) (e : LogEntry) :
    (replayStep st e).currentColor = e.color := by
  unfold replayStep
  dsimp only
  by_cases htr : e.isPainting ≠ st.isPainting ∨ e.color ≠ st.currentColor
  · rw [if_pos htr]
    repeat' split
    all_goals simp [addPoint_currentColor, createNewStroke_currentColor]
  · rw [if_neg htr]
    push_neg at htr
    repeat' split
    all_goals simp [addPoint_currentColor, htr.2]

lemma replayStep_isRecording (st : State) (e : LogEntry) :
    (replayStep st e).isRecording = st.isRecording := by
  unfold replayStep
  dsimp only
  repeat' split
  all_goals simp [addPoint_isRecording, createNewStroke_isRecording]

lemma replayStep_isReplaying (st : State) (e : LogEntry) :
    (replayStep st e).isReplaying = st.isReplaying := by
  unfold replayStep
  dsimp only
  repeat' split
  all_goals simp [addPoint_isReplaying, createNewStroke_isReplaying]

/-- The fed instrumentation of one replay tick: a painting entry feeds its
recorded position and (unclamped) energy into the Stroke Store, a
non-painting entry feeds nothing. -/
lemma replayStep_fed (st : State) (e : LogEntry) :
    (replayStep st e).fed = st.fed ++ (if e.isPainting then [(e.p, e.energy)] else []) := by
  unfold replayStep
  dsimp only
  by_cases hpe : e.isPainting = true
  · by_cases htr : e.isPainting ≠ st.isPainting ∨ e.color ≠ st.currentColor
    · rw [if_pos htr, if_pos hpe]
      have hcp : (createNewStroke
          { st with isPainting := e.isPainting, currentColor := e.color }).isPainting
          = true := by
        rw [createNewStroke_isPainting]
        exact hpe
      rw [if_pos hcp, addPoint_fed]
      simp [createNewStroke_fed, hpe]
    · push_neg at htr
      rw [if_neg (show ¬(e.isPainting ≠ st.isPainting ∨ e.color ≠ st.currentColor) from
        fun h => h.elim (fun h1 => h1 htr.1) (fun h2 => h2 htr.2))]
      rw [if_pos (show st.isPainting = true from htr.1 ▸ hpe), addPoint_fed]
      simp [hpe]
  · have hpf : e.isPainting = false := by
      cases h : e.isPainting
      · rfl
      · exact absurd h hpe
    by_cases htr : e.isPainting ≠ st.isPainting ∨ e.color ≠ st.currentColor
    · rw [if_pos htr, if_neg hpe, if_neg hpe]
      simp [hpf]
    · push_neg at htr
      rw [if_neg (show ¬(e.isPainting ≠ st.isPainting ∨ e.color ≠ st.currentColor) from
        fun h => h.elim (fun h1 => h1 htr.1) (fun h2 => h2 htr.2))]
      rw [if_neg (show ¬st.isPainting = true by rw [← htr.1]; exact hpe)]
      simp [hpf]

/-- A non-painting replay entry never changes the Stroke Store. -/
lemma replayStep_off_strokes (st : State) (e : LogEntry) (hp : e.isPainting = false) :
    (replayStep st e).strokes = st.strokes := by
  unfold replayStep
  dsimp only
  have hpe : ¬e.isPainting = true := by simp [hp]
  by_cases htr : e.isPainting ≠ st.isPainting ∨ e.color ≠ st.currentColor
  · rw [if_pos htr, if_neg hpe, if_neg hpe]
  · push_neg at htr
    rw [if_neg (show ¬(e.isPainting ≠ st.isPainting ∨ e.color ≠ st.currentColor) from
        fun h => h.elim (fun h1 => h1 htr.1) (fun h2 => h2 htr.2))]
    rw [if_neg (show ¬st.isPainting = true by rw [← htr.1]; exact hpe)]

/-- A painting replay entry that neither toggles the flag nor changes the
color appends (at most) one point to the last stroke and preserves the rest
of the store. -/
lemma replayStep_on_strokes (st : State) (e : LogEntry) (ss : List Stroke) (s : Stroke)
    (hst : st.strokes = ss ++ [s]) (hp : st.isPainting = true)
    (hep : e.isPainting = true) (hc : st.currentColor = e.color) :
    ∃ s', (replayStep st e).strokes = ss ++ [s'] ∧ s'.color = s.color ∧
      s'.points.length ≤ s.points.length + 1 := by
  unfold replayStep
  dsimp only
  rw [if_neg (show ¬(e.isPainting ≠ st.isPainting ∨ e.color ≠ st.currentColor) from
      fun h => h.elim (fun h1 => h1 (hep.trans hp.symm)) (fun h2 => h2 hc.symm))]
  rw [if_pos (show st.isPainting = true from hp)]
  have hst2s : ({ st with pos := e.p, energyAvg := e.energy } : State).strokes
      = ss ++ [s] := hst
  by_cases hd : 0 < s.points.length ∧ distanceTo e.p (lastPointOf s) < 0.3
  · rw [addPoint_reject _ ss s e.p e.energy hst2s hd.1 hd.2]
    exact ⟨s, hst, rfl, Nat.le_succ _⟩
  · rw [addPoint_accept _ ss s e.p e.energy hst2s hd]
    refine ⟨_, rfl, ?_, ?_⟩
    · rw [updateStrokeGeometry_fst_color]
    · rw [updateStrokeGeometry_fst_points]
      simp

/-- The first painting entry after a non-painting state starts a fresh stroke
with the entry's color and feeds it the entry's point (no decimation against
an empty stroke, no geometry for a one-point stroke). -/
lemma replayStep_turn_on (st : State) (e : LogEntry) (hp : st.isPainting = false)
    (hep : e.isPainting = true) (ha : st.isRecording = true ∨ st.isReplaying = true) :
    (replayStep st e).strokes =
      st.strokes ++ [⟨[e.p], [e.energy], e.color, none, none⟩] := by
  have hne : e.isPainting ≠ st.isPainting := by rw [hp, hep]; simp
  unfold replayStep
  dsimp only
  rw [if_pos (Or.inl hne), if_pos hep]
  rw [createNewStroke_active_eq _ (by simpa using ha)]
  dsimp only
  rw [if_pos hep]
  have hSs : ({ st with
      pos := e.p, energyAvg := e.energy, isPainting := e.isPainting,
      currentColor := e.color,
      strokes := st.strokes ++ [(⟨[], [], e.color, none, none⟩ : Stroke)] } : State).strokes
      = st.strokes ++ [(⟨[], [], e.color, none, none⟩ : Stroke)] := rfl
  rw [addPoint_accept _ st.strokes ⟨[], [], e.color, none, none⟩ e.p e.energy hSs (by simp)]
  simp [updateStrokeGeometry_lt_two]

/-- The relation between two replay runs that replay determinism maintains:
equal stores, equal painting flag, colors equal whenever painting is on, and
equal activity flags.  The shared scratch side vector and the motion fields
are deliberately absent: the store never depends on them. -/
def AgreeW (a b : State) : Prop :=
  a.strokes = b.strokes ∧ a.isPainting = b.isPainting ∧
  (a.isPainting = true → a.currentColor = b.currentColor) ∧
  a.isRecording = b.isRecording ∧ a.isReplaying = b.isReplaying

lemma createNewStroke_strokes_eq (a b : State) (hs : a.strokes = b.strokes)
    (hrec : a.isRecording = b.isRecording) (hrep : a.isReplaying = b.isReplaying)
    (hcol : a.currentColor = b.currentColor) :
    (createNewStroke a).strokes = (createNewStroke b).strokes := by
  unfold createNewStroke
  rw [hrec, hrep]
  split <;> simp [hs, hcol]

lemma replayStep_agree (a b : State) (e : LogEntry) (h : AgreeW a b) :
    AgreeW (replayStep a e) (replayStep b e) := by
  obtain ⟨hs, hp, hc, hrec, hrep⟩ := h
  refine ⟨?_, ?_, ?_, ?_, ?_⟩
  case refine_2 => rw [replayStep_isPainting, replayStep_isPainting]
  case refine_3 => intro _; rw [replayStep_currentColor, replayStep_currentColor]
  case refine_4 => rw [replayStep_isRecording, replayStep_isRecording, hrec]
  case refine_5 => rw [replayStep_isReplaying, replayStep_isReplaying, hrep]
  -- the store
  by_cases hep : e.isPainting = true
  · -- painting entry: addPoint runs in both; a possible trigger creates the
    -- same fresh stroke in both.
    by_cases htra : e.isPainting ≠ a.isPainting ∨ e.color ≠ a.currentColor
    · have htrb : e.isPainting ≠ b.isPainting ∨ e.color ≠ b.currentColor := by
        rcases htra with h1 | h1
        · exact Or.inl (by rw [← hp]; exact h1)
        · by_cases hbp : a.isPainting = true
          · exact Or.inr (by rw [← hc hbp]; exact h1)
          · exact Or.inl (by
              rw [← hp]
              intro hcontr
              exact hbp (by rw [← hcontr]; exact hep))
      unfold replayStep
      dsimp only
      rw [if_pos htra, if_pos htrb, if_pos hep, if_pos hep]
      have hcpa : (createNewStroke { a with
          isPainting := e.isPainting, currentColor := e.color }).isPainting = true := by
        rw [createNewStroke_isPainting]
        exact hep
      have hcpb : (createNewStroke { b with
          isPainting := e.isPainting, currentColor := e.color }).isPainting = true := by
        rw [createNewStroke_isPainting]
        exact hep
      rw [if_pos hcpa, if_pos hcpb]
      have hcs : (createNewStroke { a with
            isPainting := e.isPainting, currentColor := e.color }).strokes
          = (createNewStroke { b with
            isPainting := e.isPainting, currentColor := e.color }).strokes :=
        createNewStroke_strokes_eq _ _ (by simpa using hs) (by simpa using hrec)
          (by simpa using hrep) (by simp)
      apply addPoint_strokes_eq
      · exact hcs
      · simp [createNewStroke_isRecording, hrec]
      · simp [createNewStroke_isReplaying, hrep]
      · simp [createNewStroke_currentColor]
    · have hap : a.isPainting = true := by
        push_neg at htra
        rw [← htra.1]; exact hep
      have hacol : a.currentColor = e.color := by
        push_neg at htra
        exact (htra.2).symm
      have htrb : ¬(e.isPainting ≠ b.isPainting ∨ e.color ≠ b.currentColor) := by
        push_neg at htra ⊢
        exact ⟨by rw [← hp]; exact htra.1, by rw [← hc hap]; exact htra.2⟩
      unfold replayStep
      dsimp only
      rw [if_neg htra, if_neg htrb, if_pos hap, if_pos (hp ▸ hap)]
      apply addPoint_strokes_eq <;> simp [hs, hrec, hrep, hacol, ← hc hap]
  · have hpf : e.isPainting = false := by
      cases hval : e.isPainting
      · rfl
      · exact absurd hval hep
    rw [replayStep_off_strokes a e hpf, replayStep_off_strokes b e hpf]
    exact hs

lemma foldl_replayStep_agree (log : List LogEntry) (a b : State) (h : AgreeW a b) :
    AgreeW (log.foldl replayStep a) (log.foldl replayStep b) := by
  induction log generalizing a b with
  | nil => exact h
  | cons e rest ih => exact ih _ _ (replayStep_agree a b e h)

lemma replayExperience_strokes (st : State) : (replayExperience st).strokes = [] := rfl

lemma replayExperience_isPainting (st : State) :
    (replayExperience st).isPainting = false := rfl

lemma replayExperience_isRecording (st : State) :
    (replayExperience st).isRecording = false := rfl

lemma replayExperience_isReplaying (st : State) :
    (replayExperience st).isReplaying = true := rfl

lemma replayExperience_fed (st : State) : (replayExperience st).fed = [] := rfl

/-- Replaying a block of consecutive painting entries of one color, from a
state already painting in that color: only the last stroke grows, by at most
one point per entry, and the flag, color and activity flags are unchanged. -/
lemma replay_on_block : ∀ (l : List LogEntry) (c : ℕ), (∀ e ∈ l, e.isPainting = true ∧
      e.color = c) → ∀ (st : State) (ss : List Stroke) (s : Stroke),
      st.strokes = ss ++ [s] → st.isPainting = true → st.currentColor = c →
      ∃ s', (l.foldl replayStep st).strokes = ss ++ [s'] ∧ s'.color = s.color ∧
        s'.points.length ≤ s.points.length + l.length ∧
        (l.foldl replayStep st).isPainting = true ∧
        (l.foldl replayStep st).currentColor = c ∧
        (l.foldl replayStep st).isRecording = st.isRecording ∧
        (l.foldl replayStep st).isReplaying = st.isReplaying := by
  intro l
  induction l with
  | nil =>
    intro c _ st ss s h1 h2 h3
    exact ⟨s, h1, rfl, by simp, h2, h3, rfl, rfl⟩
  | cons e rest ih =>
    intro c hl st ss s h1 h2 h3
    have he := hl e (List.mem_cons_self e rest)
    obtain ⟨s1, hs1, hc1, hlen1⟩ :=
      replayStep_on_strokes st e ss s h1 h2 he.1 (h3.trans he.2.symm)
    have hrest : ∀ e' ∈ rest, e'.isPainting = true ∧ e'.color = c :=
      fun e' he' => hl e' (List.mem_cons_of_mem e he')
    have hpaint : (replayStep st e).isPainting = true := by
      rw [replayStep_isPainting]; exact he.1
    have hcol : (replayStep st e).currentColor = c := by
      rw [replayStep_currentColor]; exact he.2
    obtain ⟨s', hA, hB, hC, hD, hE, hF, hG⟩ :=
      ih c hrest (replayStep st e) ss s1 hs1 hpaint hcol
    refine ⟨s', by simpa using hA, hB.trans hc1, ?_, by simpa using hD,
      by simpa using hE, ?_, ?_⟩
    · calc s'.points.length ≤ s1.points.length + rest.length := hC
        _ ≤ (s.points.length + 1) + rest.length := by omega
        _ = s.points.length + (e :: rest).length := by simp; omega
    · rw [show ((e :: rest).foldl replayStep st).isRecording
          = (rest.foldl replayStep (replayStep st e)).isRecording from rfl, hF,
        replayStep_isRecording]
    · rw [show ((e :: rest).foldl replayStep st).isReplaying
          = (rest.foldl replayStep (replayStep st e)).isReplaying from rfl, hG,
        replayStep_isReplaying]

/-- Replaying a block of non-painting entries changes no stroke, preserves
the activity flags, and (when the block is nonempty) leaves painting off. -/
lemma replay_off_block : ∀ (l : List LogEntry), (∀ e ∈ l, e.isPainting = false) →
    ∀ st : State, (l.foldl replayStep st).strokes = st.strokes ∧
      (l.foldl replayStep st).isRecording = st.isRecording ∧
      (l.foldl replayStep st).isReplaying = st.isReplaying ∧
      (l ≠ [] → (l.foldl replayStep st).isPainting = false) := by
  intro l
  induction l with
  | nil => intro _ st; exact ⟨rfl, rfl, rfl, by simp⟩
  | cons e rest ih =>
    intro hl st
    have he := hl e (List.mem_cons_self e rest)
    have hrest : ∀ e' ∈ rest, e'.isPainting = false :=
      fun e' he' => hl e' (List.mem_cons_of_mem e he')
    obtain ⟨hA, hB, hC, hD⟩ := ih hrest (replayStep st e)
    have hfold : (e :: rest).foldl replayStep st = rest.foldl replayStep (replayStep st e) :=
      rfl
    rcases hrestnil : rest with _ | ⟨r1, rrest⟩
    · subst hrestnil
      refine ⟨?_, ?_, ?_, ?_⟩
      · simpa using replayStep_off_strokes st e he
      · simpa using replayStep_isRecording st e
      · simpa using replayStep_isReplaying st e
      · intro _
        simpa [replayStep_isPainting] using he
    · subst hrestnil
      refine ⟨?_, ?_, ?_, ?_⟩
      · rw [hfold, hA, replayStep_off_strokes st e he]
      · rw [hfold, hB, replayStep_isRecording]
      · rw [hfold, hC, replayStep_isReplaying]
      · intro _
        rw [hfold]
        exact hD (by simp)

/-- The fed instrumentation of a whole replay run is determined by the log:
exactly the painting entries' positions and recorded energies, in order. -/
lemma foldl_replayStep_fed (log : List LogEntry) : ∀ st : State,
    (log.foldl replayStep st).fed = st.fed ++
      log.filterMap (fun e => if e.isPainting then some (e.p, e.energy) else none) := by
  induction log with
  | nil => intro st; simp
  | cons e rest ih =>
    intro st
    have hfold : (e :: rest).foldl replayStep st = rest.foldl replayStep (replayStep st e) :=
      rfl
    rw [hfold, ih, replayStep_fed]
    by_cases hpe : e.isPainting = true <;> simp [hpe]

/-- C2: for every fixed recorded log, running the replay procedure twice —
each run starting from the post-reset state produced by replayExperience,
whatever state the object was in before (in particular whatever currentColor,
scratch side vector or motion state was left behind) — yields bit-identical
Stroke Store contents both times: the same list of strokes with the same
point sequences, energy sequences, colors and rebuilt meshes. -/
theorem c2_replay_deterministic (st1 st2 : State) (log : List LogEntry) :
    (replayAll st1 log).strokes = (replayAll st2 log).strokes := by
  have h := foldl_replayStep_agree log (replayExperience st1) (replayExperience st2)
    ⟨by rw [replayExperience_strokes, replayExperience_strokes],
     by rw [replayExperience_isPainting, replayExperience_isPainting],
     fun hx => absurd ((replayExperience_isPainting st1) ▸ hx) (by simp),
     by rw [replayExperience_isRecording, replayExperience_isRecording],
     by rw [replayExperience_isReplaying, replayExperience_isReplaying]⟩
  exact h.1

/-- C7: replaying a log of 50 painting ticks in cyan, 10 non-painting ticks,
then 50 painting ticks in magenta yields exactly two strokes — the first
cyan with at most 50 points, the second magenta with at most 50 points — and
the Stroke Store does not change at all during the OFF interval. -/
theorem c7_replay_scenario (st : State) (l1 l2 l3 : List LogEntry)
    (h1 : l1.length = 50) (h2 : l2.length = 10) (h3 : l3.length = 50)
    (hp1 : ∀ e ∈ l1, e.isPainting = true ∧ e.color = 0x00ffff)
    (hp2 : ∀ e ∈ l2, e.isPainting = false)
    (hp3 : ∀ e ∈ l3, e.isPainting = true ∧ e.color = 0xff00ff) :
    (replayAll st (l1 ++ l2 ++ l3)).strokes.length = 2 ∧
    (replayAll st (l1 ++ l2 ++ l3)).strokes.map Stroke.color = [0x00ffff, 0xff00ff] ∧
    (∀ s ∈ (replayAll st (l1 ++ l2 ++ l3)).strokes, s.points.length ≤ 50) ∧
    (replayAll st (l1 ++ l2)).strokes = (replayAll st l1).strokes := by
  rcases l1 with _ | ⟨e1, t1⟩
  · simp at h1
  rcases l3 with _ | ⟨e3, t3⟩
  · simp at h3
  set R : State := replayExperience st with hR
  have he1 := hp1 e1 (List.mem_cons_self e1 t1)
  -- first entry: painting turns on, a cyan stroke with one point appears
  have hstep1 : (replayStep R e1).strokes = [⟨[e1.p], [e1.energy], e1.color, none, none⟩] := by
    have := replayStep_turn_on R e1 (replayExperience_isPainting st) he1.1
      (Or.inr (replayExperience_isReplaying st))
    simpa [replayExperience_strokes] using this
  have ht1 : ∀ e' ∈ t1, e'.isPainting = true ∧ e'.color = 0x00ffff :=
    fun e' he' => hp1 e' (List.mem_cons_of_mem e1 he')
  obtain ⟨sA, hsA, hcA, hlenA, hpA, hccA, hrecA, hrepA⟩ :=
    replay_on_block t1 0x00ffff ht1 (replayStep R e1) []
      ⟨[e1.p], [e1.energy], e1.color, none, none⟩ (by simpa using hstep1)
      (by rw [replayStep_isPainting]; exact he1.1)
      (by rw [replayStep_currentColor]; exact he1.2)
  have hA : ((e1 :: t1).foldl replayStep R) = t1.foldl replayStep (replayStep R e1) := rfl
  have hsAcol : sA.color = 0x00ffff := by
    rw [hcA]
    exact he1.2
  have hsAlen : sA.points.length ≤ 50 := by
    have ht1len : t1.length = 49 := by simpa using h1
    simp only [List.length_cons, List.length_nil] at hlenA
    omega
  -- the OFF block: nothing changes in the store
  obtain ⟨hoffS, hoffRec, hoffRep, hoffP⟩ :=
    replay_off_block l2 hp2 ((e1 :: t1).foldl replayStep R)
  have hl2ne : l2 ≠ [] := by
    intro hnil
    rw [hnil] at h2
    simp at h2
  -- the second ON block
  have he3 := hp3 e3 (List.mem_cons_self e3 t3)
  have hrepB : (l2.foldl replayStep ((e1 :: t1).foldl replayStep R)).isReplaying = true := by
    rw [hoffRep, hA, hrepA, replayStep_isReplaying]
    exact replayExperience_isReplaying st
  have hstepB : (replayStep (l2.foldl replayStep ((e1 :: t1).foldl replayStep R)) e3).strokes
      = [sA] ++ [⟨[e3.p], [e3.energy], e3.color, none, none⟩] := by
    rw [replayStep_turn_on _ e3 (hoffP hl2ne) he3.1 (Or.inr hrepB)]
    rw [hoffS, hA, hsA]
    simp
  have ht3 : ∀ e' ∈ t3, e'.isPainting = true ∧ e'.color = 0xff00ff :=
    fun e' he' => hp3 e' (List.mem_cons_of_mem e3 he')
  obtain ⟨sC, hsC, hcC, hlenC, _, _, _, _⟩ :=
    replay_on_block t3 0xff00ff ht3
      (replayStep (l2.foldl replayStep ((e1 :: t1).foldl replayStep R)) e3) [sA]
      ⟨[e3.p], [e3.energy], e3.color, none, none⟩ hstepB
      (by rw [replayStep_isPainting]; exact he3.1)
      (by rw [replayStep_currentColor]; exact he3.2)
  have hfinal : (replayAll st ((e1 :: t1) ++ l2 ++ (e3 :: t3))).strokes = [sA] ++ [sC] := by
    show (((e1 :: t1) ++ l2 ++ (e3 :: t3)).foldl replayStep R).strokes = _
    rw [List.foldl_append, List.foldl_append]
    exact hsC
  have hsCcol : sC.color = 0xff00ff := by
    rw [hcC]
    exact he3.2
  have hsClen : sC.points.length ≤ 50 := by
    have ht3len : t3.length = 49 := by simpa using h3
    simp only [List.length_cons, List.length_nil] at hlenC
    omega
  refine ⟨?_, ?_, ?_, ?_⟩
  · rw [hfinal]; rfl
  · rw [hfinal]
    simp [hsAcol, hsCcol]
  · rw [hfinal]
    intro s hsmem
    simp only [List.singleton_append, List.mem_cons, List.mem_singleton,
      List.not_mem_nil, or_false] at hsmem
    rcases hsmem with hsmem | hsmem
    · exact hsmem ▸ hsAlen
    · exact hsmem ▸ hsClen
  · show (((e1 :: t1) ++ l2).foldl replayStep R).strokes
        = ((e1 :: t1).foldl replayStep R).strokes
    rw [List.foldl_append]
    exact hoffS

/-! ## NaN instrumentation of the ribbon builder

Every normalize in createRibbonGeometry is THREE's
`divideScalar(length() || 1)`.  The checked variants replay the same
computation in an Except monad whose error is raised exactly when a division
by zero — the way NaN would enter the vertex buffer — would occur.  The
`|| 1` guard makes the divisor 1 for zero-length vectors, so the error is
proven unreachable. -/

def checkedNormalize (v : Vec3) : Except Unit Vec3 :=
  let d := if vlen v = 0 then 1 else vlen v
  if d = 0 then Except.error () else Except.ok (smul d⁻¹ v)

lemma checkedNormalize_ok (v : Vec3) :
    checkedNormalize v = Except.ok (threeNormalize v) := by
  by_cases h : vlen v = 0 <;> simp [checkedNormalize, threeNormalize, h]

def checkedTangentAt (points : List Vec3) (i : ℕ) : Except Unit Vec3 :=
  if i < points.length - 1 then
    checkedNormalize (vsub (points.getD (i + 1) vzero) (points.getD i vzero))
  else
    checkedNormalize (vsub (points.getD i vzero) (points.getD (i - 1) vzero))

def checkedSeedSide (t : Vec3) : Except Unit Vec3 :=
  checkedNormalize (cross (if |t.y| > 0.9 then (⟨1, 0, 0⟩ : Vec3) else ⟨0, 1, 0⟩) t)

def checkedTransportSide (s t : Vec3) : Except Unit Vec3 := do
  let b ← checkedNormalize (cross t s)
  checkedNormalize (cross b t)

def checkedSideAt (sc : Option Vec3) (i : ℕ) (t : Vec3) : Except Unit Vec3 :=
  match sc, i with
  | none, _ => checkedSeedSide t
  | some _, 0 => checkedSeedSide t
  | some s, _ + 1 => checkedTransportSide s t

def checkedRibbonLoop (points : List Vec3) (energies : List ℝ) (widthMult minWidth : ℝ) :
    Option Vec3 → List ℕ → Except Unit (List Vec3 × Option Vec3)
  | sc, [] => Except.ok ([], sc)
  | sc, i :: rest => do
    let t ← checkedTangentAt points i
    let s ← checkedSideAt sc i t
    let w := minWidth + energies.getD i 0 * widthMult
    let v1 := vadd (points.getD i vzero) (smul w s)
    let v2 := vsub (points.getD i vzero) (smul w s)
    let r ← checkedRibbonLoop points energies widthMult minWidth (some s) rest
    Except.ok (v1 :: v2 :: r.1, r.2)

def checkedCreateRibbonGeometry (sc : Option Vec3) (points : List Vec3)
    (energies : List ℝ) (widthMult minWidth : ℝ) : Except Unit (Mesh × Option Vec3) := do
  let r ← checkedRibbonLoop points energies widthMult minWidth sc (List.range points.length)
  Except.ok (⟨r.1, ribbonIndices points.length⟩, r.2)

lemma checkedTangentAt_ok (points : List Vec3) (i : ℕ) :
    checkedTangentAt points i = Except.ok (tangentAt points i) := by
  unfold checkedTangentAt tangentAt
  split <;> rw [checkedNormalize_ok]

lemma checkedSeedSide_ok (t : Vec3) : checkedSeedSide t = Except.ok (seedSide t) := by
  unfold checkedSeedSide seedSide
  rw [checkedNormalize_ok]

lemma checkedTransportSide_ok (s t : Vec3) :
    checkedTransportSide s t = Except.ok (transportSide s t) := by
  unfold checkedTransportSide transportSide
  simp only [checkedNormalize_ok]
  rfl

lemma checkedSideAt_ok (sc : Option Vec3) (i : ℕ) (t : Vec3) :
    checkedSideAt sc i t = Except.ok (sideAt sc i t) := by
  unfold checkedSideAt sideAt
  rcases sc with _ | s
  · exact checkedSeedSide_ok t
  · rcases i with _ | j
    · exact checkedSeedSide_ok t
    · exact checkedTransportSide_ok s t

lemma checkedRibbonLoop_ok (points : List Vec3) (energies : List ℝ) (wm mw : ℝ) :
    ∀ (l : List ℕ) (sc : Option Vec3),
      checkedRibbonLoop points energies wm mw sc l =
        Except.ok (ribbonLoop points energies wm mw sc l) := by
  intro l
  induction l with
  | nil => intro sc; rfl
  | cons i rest ih =>
    intro sc
    rw [checkedRibbonLoop]
    simp only [checkedTangentAt_ok, checkedSideAt_ok, ih, bind, Except.bind]
    rw [ribbonLoop]

/-- C9: the ribbon builder never produces NaN: even on degenerate inputs
(repeated points giving a zero-length tangent, or a tangent parallel to the
carried side vector giving a zero-length cross product), every normalize in
the tangent/side computation is guarded by the length-or-1 divisor, so the
checked run never raises and agrees with the total builder. -/
theorem c9_ribbon_no_nan (sc : Option Vec3) (points : List Vec3) (energies : List ℝ)
    (wm mw : ℝ) :
    checkedCreateRibbonGeometry sc points energies wm mw =
      Except.ok (createRibbonGeometry sc points energies wm mw) := by
  unfold checkedCreateRibbonGeometry createRibbonGeometry
  rw [checkedRibbonLoop_ok]
  rfl

lemma createRibbonGeometry_verts_length (sc : Option Vec3) (points : List Vec3)
    (energies : List ℝ) (wm mw : ℝ) :
    (createRibbonGeometry sc points energies wm mw).1.verts.length = 2 * points.length := by
  unfold createRibbonGeometry
  dsimp only
  rw [ribbonLoop_length, List.length_range]

lemma createRibbonGeometry_tris_length (sc : Option Vec3) (points : List Vec3)
    (energies : List ℝ) (wm mw : ℝ) :
    (createRibbonGeometry sc points energies wm mw).1.tris.length
      = 2 * (points.length - 1) := by
  unfold createRibbonGeometry
  dsimp only
  rw [ribbonIndices_length]

/-- C3: the ribbon geometry pass declines to build a mesh for a stroke with
fewer than 2 points (a no-op, not an exception), and for n ≥ 2 points it
builds both the ribbon mesh and the core mesh with exactly 2n vertices (two
per point) and 2(n-1) triangles each — so 2 points give 4 vertices and 2
triangles. -/
theorem c3_ribbon_counts (sc : Option Vec3) (s : Stroke) :
    (s.points.length < 2 → updateStrokeGeometry sc s = (s, sc)) ∧
    (2 ≤ s.points.length → ∃ m c,
      (updateStrokeGeometry sc s).1.ribbonMesh = some m ∧
      (updateStrokeGeometry sc s).1.coreMesh = some c ∧
      m.verts.length = 2 * s.points.length ∧
      m.tris.length = 2 * (s.points.length - 1) ∧
      c.verts.length = 2 * s.points.length ∧
      c.tris.length = 2 * (s.points.length - 1)) := by
  constructor
  · exact updateStrokeGeometry_lt_two sc s
  · intro h
    unfold updateStrokeGeometry
    rw [if_neg (not_lt.mpr h)]
    exact ⟨_, _, rfl, rfl,
      createRibbonGeometry_verts_length _ _ _ _ _,
      createRibbonGeometry_tris_length _ _ _ _ _,
      createRibbonGeometry_verts_length _ _ _ _ _,
      createRibbonGeometry_tris_length _ _ _ _ _⟩

/-- A concrete two-point stroke for the count witness. -/
def strokeW3 : Stroke := ⟨[⟨0, 0, 0⟩, ⟨1, 0, 0⟩], [0, 0], 0x00ffff, none, none⟩

theorem c3_ribbon_counts_witness :
    2 ≤ strokeW3.points.length ∧ (∃ m c,
      (updateStrokeGeometry none strokeW3).1.ribbonMesh = some m ∧
      (updateStrokeGeometry none strokeW3).1.coreMesh = some c ∧
      m.verts.length = 2 * strokeW3.points.length ∧
      m.tris.length = 2 * (strokeW3.points.length - 1) ∧
      c.verts.length = 2 * strokeW3.points.length ∧
      c.tris.length = 2 * (strokeW3.points.length - 1)) :=
  ⟨by decide, (c3_ribbon_counts none strokeW3).2 (by decide)⟩

/-- C10: the ribbon builder's output, both the mesh and the outgoing scratch
value, depends only on the call's arguments: the transport-frame side vector
is re-seeded at index 0 of every call, so the value the shared this._lastSide
field happens to hold from an earlier rebuild of another stroke cannot leak
into this rebuild. -/
theorem c10_scratch_independent (sc1 sc2 : Option Vec3) (points : List Vec3)
    (energies : List ℝ) (wm mw : ℝ) (h : 2 ≤ points.length) :
    (createRibbonGeometry sc1 points energies wm mw).1 =
      (createRibbonGeometry sc2 points energies wm mw).1 := by
  rw [createRibbonGeometry_scratch_indep sc1 sc2 points energies wm mw (by omega)]

theorem c10_scratch_independent_witness :
    2 ≤ ([⟨0, 0, 0⟩, ⟨1, 0, 0⟩] : List Vec3).length ∧
    (createRibbonGeometry none [⟨0, 0, 0⟩, ⟨1, 0, 0⟩] [0, 0] 1.2 0.2).1 =
      (createRibbonGeometry (some ⟨0, 0, 1⟩) [⟨0, 0, 0⟩, ⟨1, 0, 0⟩] [0, 0] 1.2 0.2).1 :=
  ⟨by decide, c10_scratch_independent none (some ⟨0, 0, 1⟩)
    [⟨0, 0, 0⟩, ⟨1, 0, 0⟩] [0, 0] 1.2 0.2 (by decide)⟩

/-- C6: for a current stroke that already has a point, addPoint rejects a
point closer than 0.3 to the stroke's last point and leaves the Stroke Store
completely unchanged; otherwise it appends the point and its energy to that
stroke and rebuilds that stroke's geometry (updateStrokeGeometry). -/
theorem c6_append_decimation (st : State) (ss : List Stroke) (s : Stroke) (p : Vec3) (e : ℝ)
    (hst : st.strokes = ss ++ [s]) (hne : s.points ≠ []) :
    (distanceTo p (lastPointOf s) < 0.3 → (addPoint st p e).strokes = st.strokes) ∧
    (¬distanceTo p (lastPointOf s) < 0.3 → (addPoint st p e).strokes =
      ss ++ [(updateStrokeGeometry st.lastSide
        { s with points := s.points ++ [p], energies := s.energies ++ [e] }).1]) := by
  have hlen : 0 < s.points.length := List.length_pos.mpr hne
  constructor
  · intro hd
    rw [addPoint_reject st ss s p e hst hlen hd]
  · intro hd
    rw [addPoint_accept st ss s p e hst (fun hcon => hd hcon.2)]

/-- A one-point stroke and a store holding it, for the decimation witness. -/
def strokeW6 : Stroke := ⟨[⟨0, 0, 0⟩], [0], 0x00ffff, none, none⟩

def stateW6 : State := { initState with strokes := [strokeW6], isRecording := true }

theorem c6_append_decimation_witness :
    stateW6.strokes = [] ++ [strokeW6] ∧ strokeW6.points ≠ [] ∧
    distanceTo ⟨0, 0, 0⟩ (lastPointOf strokeW6) < 0.3 ∧
    (addPoint stateW6 ⟨0, 0, 0⟩ 0).strokes = stateW6.strokes := by
  have hd : distanceTo ⟨0, 0, 0⟩ (lastPointOf strokeW6) < 0.3 := by
    have : lastPointOf strokeW6 = ⟨0, 0, 0⟩ := rfl
    rw [this]
    show vlen (vsub ⟨0, 0, 0⟩ ⟨0, 0, 0⟩) < 0.3
    have hv : vsub (⟨0, 0, 0⟩ : Vec3) ⟨0, 0, 0⟩ = vzero := by
      simp [vsub, vzero]
    rw [hv, vlen_vzero]
    norm_num
  exact ⟨rfl, by simp [strokeW6], hd,
    (c6_append_decimation stateW6 [] strokeW6 ⟨0, 0, 0⟩ 0 rfl (by simp [strokeW6])).1 hd⟩

/-! ## Physics facts -/

lemma condAcc_vel (st : State) : (condAcc st).vel = st.vel := by
  unfold condAcc
  split <;> rfl

lemma condAcc_pos (st : State) : (condAcc st).pos = st.pos := by
  unfold condAcc
  split <;> rfl

lemma condAcc_stillnessFrames (st : State) :
    (condAcc st).stillnessFrames = st.stillnessFrames := by
  unfold condAcc
  split <;> rfl

lemma condAcc_orientation (st : State) : (condAcc st).orientation = st.orientation := by
  unfold condAcc
  split <;> rfl

lemma condAcc_rotationMag (st : State) : (condAcc st).rotationMag = st.rotationMag := by
  unfold condAcc
  split <;> rfl

lemma createNewStroke_vel (st : State) : (createNewStroke st).vel = st.vel := by
  unfold createNewStroke
  split <;> rfl

lemma createNewStroke_pos (st : State) : (createNewStroke st).pos = st.pos := by
  unfold createNewStroke
  split <;> rfl

lemma createNewStroke_acc (st : State) : (createNewStroke st).acc = st.acc := by
  unfold createNewStroke
  split <;> rfl

lemma createNewStroke_stillnessFrames (st : State) :
    (createNewStroke st).stillnessFrames = st.stillnessFrames := by
  unfold createNewStroke
  split <;> rfl

lemma addPoint_vel (st : State) (p : Vec3) (e : ℝ) : (addPoint st p e).vel = st.vel := by
  unfold addPoint
  dsimp only
  repeat' split
  all_goals simp [createNewStroke_vel]

lemma addPoint_pos (st : State) (p : Vec3) (e : ℝ) : (addPoint st p e).pos = st.pos := by
  unfold addPoint
  dsimp only
  repeat' split
  all_goals simp [createNewStroke_pos]

lemma addPoint_acc (st : State) (p : Vec3) (e : ℝ) : (addPoint st p e).acc = st.acc := by
  unfold addPoint
  dsimp only
  repeat' split
  all_goals simp [createNewStroke_acc]

lemma addPoint_stillnessFrames (st : State) (p : Vec3) (e : ℝ) :
    (addPoint st p e).stillnessFrames = st.stillnessFrames := by
  unfold addPoint
  dsimp only
  repeat' split
  all_goals simp [createNewStroke_stillnessFrames]

lemma applyDeviceEvent_vel (st : State) (ev : DeviceEvent) :
    (applyDeviceEvent st ev).vel = st.vel := by
  cases ev with
  | motion e =>
    show (onDeviceMotion st e).vel = st.vel
    unfold onDeviceMotion
    repeat' split
    all_goals rfl
  | orientation a b g => rfl
  | paintToggle =>
    show (paintToggleHandler st).vel = st.vel
    unfold paintToggleHandler
    dsimp only
    split <;> simp [createNewStroke_vel]
  | colorChange c =>
    show (colorChangeHandler st c).vel = st.vel
    unfold colorChangeHandler
    dsimp only
    split <;> simp [createNewStroke_vel]

lemma applyDeviceEvent_pos (st : State) (ev : DeviceEvent) :
    (applyDeviceEvent st ev).pos = st.pos := by
  cases ev with
  | motion e =>
    show (onDeviceMotion st e).pos = st.pos
    unfold onDeviceMotion
    repeat' split
    all_goals rfl
  | orientation a b g => rfl
  | paintToggle =>
    show (paintToggleHandler st).pos = st.pos
    unfold paintToggleHandler
    dsimp only
    split <;> simp [createNewStroke_pos]
  | colorChange c =>
    show (colorChangeHandler st c).pos = st.pos
    unfold colorChangeHandler
    dsimp only
    split <;> simp [createNewStroke_pos]

lemma applyDeviceEvent_stillnessFrames (st : State) (ev : DeviceEvent) :
    (applyDeviceEvent st ev).stillnessFrames = st.stillnessFrames := by
  cases ev with
  | motion e =>
    show (onDeviceMotion st e).stillnessFrames = st.stillnessFrames
    unfold onDeviceMotion
    repeat' split
    all_goals rfl
  | orientation a b g => rfl
  | paintToggle =>
    show (paintToggleHandler st).stillnessFrames = st.stillnessFrames
    unfold paintToggleHandler
    dsimp only
    split <;> simp [createNewStroke_stillnessFrames]
  | colorChange c =>
    show (colorChangeHandler st c).stillnessFrames = st.stillnessFrames
    unfold colorChangeHandler
    dsimp only
    split <;> simp [createNewStroke_stillnessFrames]

lemma applyEvents_pos : ∀ (evs : List DeviceEvent) (st : State),
    (evs.foldl applyDeviceEvent st).pos = st.pos := by
  intro evs
  induction evs with
  | nil => intro st; rfl
  | cons ev rest ih =>
    intro st
    show (rest.foldl applyDeviceEvent (applyDeviceEvent st ev)).pos = st.pos
    rw [ih, applyDeviceEvent_pos]

lemma applyEvents_stillnessFrames : ∀ (evs : List DeviceEvent) (st : State),
    (evs.foldl applyDeviceEvent st).stillnessFrames = st.stillnessFrames := by
  intro evs
  induction evs with
  | nil => intro st; rfl
  | cons ev rest ih =>
    intro st
    show (rest.foldl applyDeviceEvent (applyDeviceEvent st ev)).stillnessFrames
        = st.stillnessFrames
    rw [ih, applyDeviceEvent_stillnessFrames]

lemma processWorldAcc_stationary (w : Vec3) (r : ℝ) (h : isStationaryJudge w r) :
    processWorldAcc w r = vzero := by
  rw [processWorldAcc, if_pos h]

lemma processWorldAcc_vlen_of_ge (w : Vec3) (r : ℝ) (h : deadzone ≤ vlen w) :
    vlen (processWorldAcc w r) = vlen w - deadzone * 0.8 := by
  have hdz : (0:ℝ) < deadzone := by norm_num [deadzone]
  have hwpos : (0:ℝ) < vlen w := lt_of_lt_of_le hdz h
  have hns : ¬isStationaryJudge w r := fun hc => absurd hc.1 (not_lt.mpr h)
  rw [processWorldAcc, if_neg hns, vlen_smul, vlen_threeNormalize w (ne_of_gt hwpos),
    mul_one, abs_of_nonneg]
  have : deadzone * 0.8 < deadzone := by norm_num [deadzone]
  linarith

/-- C5 (amended): on every physics tick, an acceleration judged stationary
(magnitude below the deadzone with rotation-rate magnitude below 0.2) is
zeroed; otherwise only 0.8 of the deadzone magnitude is subtracted from the
vector's length, so the response magnitude at and above the threshold is
accLen - deadzone*0.8 — leaving a residual step of 0.2*deadzone = 0.18 at
the threshold rather than a continuous onset. -/
theorem c5_deadzone_step (w : Vec3) (r : ℝ) :
    (vlen w < deadzone ∧ r < 0.2 → processWorldAcc w r = vzero) ∧
    (deadzone ≤ vlen w → vlen (processWorldAcc w r) = vlen w - deadzone * 0.8) :=
  ⟨fun h => processWorldAcc_stationary w r h, fun h => processWorldAcc_vlen_of_ge w r h⟩

theorem c5_deadzone_step_witness :
    deadzone ≤ vlen ⟨0.9, 0, 0⟩ ∧
    vlen (processWorldAcc ⟨0.9, 0, 0⟩ 0) = vlen ⟨0.9, 0, 0⟩ - deadzone * 0.8 := by
  have h : deadzone ≤ vlen ⟨0.9, 0, 0⟩ := by
    rw [vlen_xaxis, show |(0.9:ℝ)| = 0.9 from abs_of_pos (by norm_num)]
    norm_num [deadzone]
  exact ⟨h, (c5_deadzone_step ⟨0.9, 0, 0⟩ 0).2 h⟩

/-- C5 counterexample: the claim that the deadzone subtraction makes the
integrated response continuous across the threshold is false.  Along the
acceleration family (t, 0, 0) with no rotation, the processed magnitude is 0
for every t below the 0.9 threshold but jumps to 0.18 at the threshold: the
code subtracts deadzone*0.8, not the full deadzone magnitude. -/
theorem c5_deadzone_discontinuous :
    ¬ContinuousAt (fun t : ℝ => vlen (processWorldAcc ⟨t, 0, 0⟩ 0)) 0.9 ∧
    vlen (processWorldAcc ⟨0.9, 0, 0⟩ 0) = 0.18 := by
  have hval : vlen (processWorldAcc ⟨0.9, 0, 0⟩ 0) = 0.18 := by
    have habs : |(0.9:ℝ)| = 0.9 := abs_of_pos (by norm_num)
    rw [processWorldAcc_vlen_of_ge _ _ (by rw [vlen_xaxis, habs]; norm_num [deadzone]),
      vlen_xaxis, habs]
    norm_num [deadzone]
  refine ⟨?_, hval⟩
  intro hcont
  have h1 : Filter.Tendsto (fun t : ℝ => vlen (processWorldAcc ⟨t, 0, 0⟩ 0))
      (nhdsWithin 0.9 (Set.Iio 0.9))
      (nhds (vlen (processWorldAcc ⟨0.9, 0, 0⟩ 0))) :=
    hcont.tendsto.mono_left nhdsWithin_le_nhds
  have hmem : Set.Ioo (0:ℝ) 0.9 ∈ nhdsWithin (0.9:ℝ) (Set.Iio 0.9) :=
    Ioo_mem_nhdsWithin_Iio (by constructor <;> norm_num)
  have hev : ∀ᶠ t in nhdsWithin (0.9:ℝ) (Set.Iio 0.9),
      (fun t : ℝ => vlen (processWorldAcc ⟨t, 0, 0⟩ 0)) t = 0 := by
    refine Filter.eventually_of_mem hmem ?_
    intro t ht
    show vlen (processWorldAcc ⟨t, 0, 0⟩ 0) = 0
    have hstat : isStationaryJudge ⟨t, 0, 0⟩ 0 := by
      constructor
      · rw [vlen_xaxis, abs_of_pos ht.1]
        calc t < 0.9 := ht.2
          _ ≤ deadzone := by norm_num [deadzone]
      · norm_num
    rw [processWorldAcc_stationary _ _ hstat, vlen_vzero]
  have h2 : Filter.Tendsto (fun t : ℝ => vlen (processWorldAcc ⟨t, 0, 0⟩ 0))
      (nhdsWithin 0.9 (Set.Iio 0.9)) (nhds 0) :=
    (Filter.tendsto_congr' hev).mpr tendsto_const_nhds
  have := tendsto_nhds_unique h1 h2
  rw [hval] at this
  norm_num at this

/-- On a tick the integrator judges stationary, stillnessFrames always
advances by one (with or without the hard clamp). -/
lemma updatePhysics_stationary_still (st : State) (dt : ℝ)
    (hstat : isStationaryJudge (applyQuaternion (condAcc st).acc (condAcc st).orientation)
      (condAcc st).rotationMag) :
    (updatePhysics st dt).stillnessFrames = st.stillnessFrames + 1 := by
  unfold updatePhysics
  dsimp only
  rw [if_pos hstat, processWorldAcc_stationary _ _ hstat]
  repeat' split
  all_goals simp [addPoint_stillnessFrames, condAcc_stillnessFrames]

/-- A stationary tick entered with at least one prior stillness frame
hard-clamps velocity and filtered acceleration to zero and leaves the
position untouched. -/
lemma updatePhysics_stationary_clamped (st : State) (dt : ℝ)
    (hstat : isStationaryJudge (applyQuaternion (condAcc st).acc (condAcc st).orientation)
      (condAcc st).rotationMag)
    (hstill : 1 ≤ st.stillnessFrames) :
    (updatePhysics st dt).vel = vzero ∧ (updatePhysics st dt).acc = vzero ∧
    (updatePhysics st dt).pos = st.pos := by
  unfold updatePhysics
  dsimp only
  rw [if_pos hstat, processWorldAcc_stationary _ _ hstat]
  rw [if_pos (show (condAcc st).stillnessFrames + 1 > 1 by
    rw [condAcc_stillnessFrames]; omega)]
  simp only [smul_vzero, vadd_vzero, vlen_vzero]
  rw [if_pos (show (0:ℝ) < 0.2 by norm_num)]
  refine ⟨?_, ?_, ?_⟩ <;>
    · repeat' split
      all_goals
        simp [addPoint_vel, addPoint_acc, addPoint_pos, condAcc_pos]

lemma physTick_stationary_still (st : State) (t : List DeviceEvent × ℝ)
    (hstat : stationaryAt st t) :
    (physTick st t).stillnessFrames = st.stillnessFrames + 1 := by
  show (updatePhysics (t.1.foldl applyDeviceEvent st) t.2).stillnessFrames = _
  rw [updatePhysics_stationary_still _ _ hstat, applyEvents_stillnessFrames]

lemma physTick_stationary_clamped (st : State) (t : List DeviceEvent × ℝ)
    (hstat : stationaryAt st t) (hstill : 1 ≤ st.stillnessFrames) :
    (physTick st t).vel = vzero ∧ (physTick st t).acc = vzero ∧
    (physTick st t).pos = st.pos := by
  have h := updatePhysics_stationary_clamped (t.1.foldl applyDeviceEvent st) t.2 hstat
    (by rw [applyEvents_stillnessFrames]; exact hstill)
  refine ⟨h.1, h.2.1, ?_⟩
  show (updatePhysics (t.1.foldl applyDeviceEvent st) t.2).pos = st.pos
  rw [h.2.2, applyEvents_pos]

/-- Running any number of stationary ticks from a state that already has a
stillness frame: the position never moves again, and each tick ends with
velocity and filtered acceleration clamped to zero. -/
lemma physRun_stationary_tail : ∀ (ticks : List (List DeviceEvent × ℝ)) (st : State),
    1 ≤ st.stillnessFrames →
    (∀ pre t suf, ticks = pre ++ t :: suf → stationaryAt (physRun st pre) t) →
    (physRun st ticks).pos = st.pos ∧
    (ticks ≠ [] → (physRun st ticks).vel = vzero ∧ (physRun st ticks).acc = vzero) := by
  intro ticks
  induction ticks with
  | nil => intro st _ _; exact ⟨rfl, by simp⟩
  | cons t rest ih =>
    intro st hstill hstat
    have hstat0 : stationaryAt st t := hstat [] t rest rfl
    obtain ⟨hv, ha, hp⟩ := physTick_stationary_clamped st t hstat0 hstill
    have hstill1 : 1 ≤ (physTick st t).stillnessFrames := by
      rw [physTick_stationary_still st t hstat0]
      omega
    have hshift : ∀ pre t' suf, rest = pre ++ t' :: suf →
        stationaryAt (physRun (physTick st t) pre) t' := by
      intro pre t' suf hdecomp
      have := hstat (t :: pre) t' suf (by rw [hdecomp]; rfl)
      simpa [physRun] using this
    have hfold : physRun st (t :: rest) = physRun (physTick st t) rest := rfl
    obtain ⟨ihpos, ihva⟩ := ih (physTick st t) hstill1 hshift
    refine ⟨by rw [hfold, ihpos, hp], fun _ => ?_⟩
    rcases hrest : rest with _ | ⟨r1, rrest⟩
    · subst hrest
      exact ⟨hv, ha⟩
    · subst hrest
      exact ihva (by simp)

/-- C4: if from some physics tick onward the integrator judges every tick
stationary (world-space acceleration magnitude below the deadzone and
rotation-rate magnitude below 0.2), then from the second such tick on the
zero-velocity update hard-clamps velocity and filtered acceleration to
exactly zero and the position stays at a fixed point — no drift accumulates
during stillness. -/
theorem c4_zvu_no_drift (st0 : State) (ticks : List (List DeviceEvent × ℝ))
    (hstat : ∀ pre t suf, ticks = pre ++ t :: suf → stationaryAt (physRun st0 pre) t)
    (k : ℕ) (hk2 : 2 ≤ k) (hklen : k ≤ ticks.length) :
    (physRun st0 (ticks.take k)).vel = vzero ∧
    (physRun st0 (ticks.take k)).acc = vzero ∧
    (physRun st0 (ticks.take k)).pos = (physRun st0 (ticks.take 2)).pos := by
  rcases ticks with _ | ⟨t1, ticks'⟩
  · simp at hklen
    omega
  rcases ticks' with _ | ⟨t2, rest⟩
  · simp at hklen
    omega
  obtain ⟨m, hm⟩ : ∃ m, k = m + 2 := ⟨k - 2, by omega⟩
  subst hm
  have htake : (t1 :: t2 :: rest).take (m + 2) = t1 :: t2 :: rest.take m := rfl
  have htake2 : (t1 :: t2 :: rest).take 2 = [t1, t2] := rfl
  rw [htake, htake2]
  have hstat1 : stationaryAt st0 t1 := hstat [] t1 (t2 :: rest) rfl
  have hstill1 : 1 ≤ (physTick st0 t1).stillnessFrames := by
    rw [physTick_stationary_still st0 t1 hstat1]
    omega
  have hshift : ∀ l : List (List DeviceEvent × ℝ),
      (∀ pre t suf, t2 :: rest = pre ++ t :: suf → True) → True := fun _ _ => trivial
  have hstatTail : ∀ (l : List (List DeviceEvent × ℝ)), l <+: (t2 :: rest) →
      ∀ pre t suf, l = pre ++ t :: suf → stationaryAt (physRun (physTick st0 t1) pre) t := by
    intro l hpre pre t suf hdecomp
    obtain ⟨suf2, hsuf2⟩ := hpre
    have heq : t1 :: t2 :: rest = (t1 :: pre) ++ t :: (suf ++ suf2) := by
      rw [← hsuf2, hdecomp]
      simp
    have h := hstat (t1 :: pre) t (suf ++ suf2) heq
    simpa [physRun] using h
  have hrunfold : ∀ l, physRun st0 (t1 :: l) = physRun (physTick st0 t1) l := fun _ => rfl
  have hA := physRun_stationary_tail (t2 :: rest.take m) (physTick st0 t1) hstill1
    (hstatTail (t2 :: rest.take m) ⟨rest.drop m, by simp⟩)
  have hB := physRun_stationary_tail [t2] (physTick st0 t1) hstill1
    (hstatTail [t2] ⟨rest, rfl⟩)
  obtain ⟨hva, hvacc⟩ := hA.2 (by simp)
  refine ⟨?_, ?_, ?_⟩
  · rw [hrunfold]
    exact hva
  · rw [hrunfold]
    exact hvacc
  · rw [hrunfold (t2 :: rest.take m), hrunfold [t2], hA.1, hB.1]

lemma createNewStroke_latestAcc (st : State) : (createNewStroke st).latestAcc = st.latestAcc := by
  unfold createNewStroke
  split <;> rfl

lemma createNewStroke_rotationMag (st : State) :
    (createNewStroke st).rotationMag = st.rotationMag := by
  unfold createNewStroke
  split <;> rfl

lemma addPoint_latestAcc (st : State) (p : Vec3) (e : ℝ) :
    (addPoint st p e).latestAcc = st.latestAcc := by
  unfold addPoint
  dsimp only
  repeat' split
  all_goals simp [createNewStroke_latestAcc]

lemma addPoint_rotationMag (st : State) (p : Vec3) (e : ℝ) :
    (addPoint st p e).rotationMag = st.rotationMag := by
  unfold addPoint
  dsimp only
  repeat' split
  all_goals simp [createNewStroke_rotationMag]

/-- With no pending sample, the acceleration conditioning is just the decay
of the (zero) filtered acceleration. -/
lemma condAcc_quiet (st : State) (hacc : st.acc = vzero) (hla : st.latestAcc = none) :
    condAcc st = { st with acc := vzero } := by
  unfold condAcc
  rw [hla]
  simp [hacc]

lemma stationaryAt_quiet (st : State) (dt : ℝ) (hacc : st.acc = vzero)
    (hla : st.latestAcc = none) (hrot : st.rotationMag < 0.2) :
    stationaryAt st ([], dt) := by
  show isStationaryJudge (applyQuaternion (condAcc st).acc (condAcc st).orientation)
    (condAcc st).rotationMag
  rw [condAcc_quiet st hacc hla]
  constructor
  · show vlen (applyQuaternion vzero st.orientation) < deadzone
    rw [applyQuaternion_vzero, vlen_vzero]
    norm_num [deadzone]
  · exact hrot

/-- A tick taken with zero filtered acceleration and no pending sample keeps
the acceleration zero, consumes no sample, and leaves the rotation magnitude
unchanged — whatever branch the integrator takes. -/
lemma updatePhysics_quiet_preserves (st : State) (dt : ℝ) (hacc : st.acc = vzero)
    (hla : st.latestAcc = none) :
    (updatePhysics st dt).acc = vzero ∧ (updatePhysics st dt).latestAcc = none ∧
    (updatePhysics st dt).rotationMag = st.rotationMag := by
  unfold updatePhysics
  dsimp only
  rw [condAcc_quiet st hacc hla]
  refine ⟨?_, ?_, ?_⟩ <;>
    · repeat' split
      all_goals
        simp [addPoint_acc, addPoint_latestAcc, addPoint_rotationMag, hla]

def quietTicks : List (List DeviceEvent × ℝ) := [([], 1/30), ([], 1/30)]

theorem c4_zvu_no_drift_witness :
    (∀ pre t suf, quietTicks = pre ++ t :: suf →
      stationaryAt (physRun (startExperience initState) pre) t) ∧
    2 ≤ 2 ∧ 2 ≤ quietTicks.length ∧
    ((physRun (startExperience initState) (quietTicks.take 2)).vel = vzero ∧
     (physRun (startExperience initState) (quietTicks.take 2)).acc = vzero ∧
     (physRun (startExperience initState) (quietTicks.take 2)).pos
       = (physRun (startExperience initState) (quietTicks.take 2)).pos) := by
  have hacc0 : (startExperience initState).acc = vzero := rfl
  have hla0 : (startExperience initState).latestAcc = none := rfl
  have hrot0 : (startExperience initState).rotationMag = 0 := rfl
  have hstat : ∀ pre t suf, quietTicks = pre ++ t :: suf →
      stationaryAt (physRun (startExperience initState) pre) t := by
    intro pre t suf hdec
    rcases pre with _ | ⟨p1, pre'⟩
    · have ht : t = ([], 1/30) := by
        have := hdec
        simp only [quietTicks, List.nil_append] at this
        injection this with h1 _
        exact h1.symm
      subst ht
      exact stationaryAt_quiet _ _ hacc0 hla0
        (by show (startExperience initState).rotationMag < 0.2
            rw [hrot0]
            norm_num)
    · rcases pre' with _ | ⟨p2, pre''⟩
      · have hp1 : p1 = ([], 1/30) ∧ t = ([], 1/30) := by
          have := hdec
          simp only [quietTicks, List.cons_append, List.nil_append] at this
          injection this with h1 h2
          injection h2 with h3 _
          exact ⟨h1.symm, h3.symm⟩
        obtain ⟨hp1a, hp1b⟩ := hp1
        subst hp1a
        subst hp1b
        have hone : physRun (startExperience initState) [([], 1/30)]
            = updatePhysics (startExperience initState) (1/30) := rfl
        obtain ⟨hqa, hqb, hqc⟩ :=
          updatePhysics_quiet_preserves (startExperience initState) (1/30) hacc0 hla0
        rw [hone]
        exact stationaryAt_quiet _ _ hqa hqb (by rw [hqc, hrot0]; norm_num)
      · exfalso
        have hlen := congrArg List.length hdec
        simp only [quietTicks, List.length_append, List.length_cons,
          List.length_nil] at hlen
        omega
  refine ⟨hstat, le_refl 2, by decide, ?_⟩
  exact c4_zvu_no_drift (startExperience initState) quietTicks hstat 2 (le_refl 2) (by decide)

/-! ## What a live session feeds into the Stroke Store (for the replay
equivalence claim) -/

/-- From the instrumented per-tick trace, the addPoint calls a live session
makes: one for each recorded tick whose painting flag was on and whose
post-tick speed exceeded 0.1, carrying the position and the clamped energy. -/
def liveFeedOf (tr : List (LogEntry × ℝ)) : List (Vec3 × ℝ) :=
  tr.filterMap (fun pr => if pr.1.isPainting = true ∧ 0.1 < pr.2
    then some (pr.1.p, clamp pr.1.energy 0 1) else none)

lemma liveFeedOf_append (a b : List (LogEntry × ℝ)) :
    liveFeedOf (a ++ b) = liveFeedOf a ++ liveFeedOf b :=
  List.filterMap_append a b _

/-- The invariant tying the instrumentation to the recorded log during a
live session. -/
def LiveInv (st : State) : Prop :=
  st.fed = liveFeedOf st.trace ∧ st.recordedData = st.trace.map Prod.fst

lemma condAcc_isRecording (st : State) : (condAcc st).isRecording = st.isRecording := by
  unfold condAcc
  split <;> rfl

lemma condAcc_isPainting (st : State) : (condAcc st).isPainting = st.isPainting := by
  unfold condAcc
  split <;> rfl

lemma condAcc_energyAvg (st : State) : (condAcc st).energyAvg = st.energyAvg := by
  unfold condAcc
  split <;> rfl

lemma condAcc_fed (st : State) : (condAcc st).fed = st.fed := by
  unfold condAcc
  split <;> rfl

lemma condAcc_trace (st : State) : (condAcc st).trace = st.trace := by
  unfold condAcc
  split <;> rfl

lemma condAcc_recordedData (st : State) : (condAcc st).recordedData = st.recordedData := by
  unfold condAcc
  split <;> rfl

lemma applyDeviceEvent_fed (st : State) (ev : DeviceEvent) :
    (applyDeviceEvent st ev).fed = st.fed := by
  cases ev with
  | motion e =>
    show (onDeviceMotion st e).fed = st.fed
    unfold onDeviceMotion
    repeat' split
    all_goals rfl
  | orientation a b g => rfl
  | paintToggle =>
    show (paintToggleHandler st).fed = st.fed
    unfold paintToggleHandler
    dsimp only
    split <;> simp [createNewStroke_fed]
  | colorChange c =>
    show (colorChangeHandler st c).fed = st.fed
    unfold colorChangeHandler
    dsimp only
    split <;> simp [createNewStroke_fed]

lemma applyDeviceEvent_trace (st : State) (ev : DeviceEvent) :
    (applyDeviceEvent st ev).trace = st.trace := by
  cases ev with
  | motion e =>
    show (onDeviceMotion st e).trace = st.trace
    unfold onDeviceMotion
    repeat' split
    all_goals rfl
  | orientation a b g => rfl
  | paintToggle =>
    show (paintToggleHandler st).trace = st.trace
    unfold paintToggleHandler
    dsimp only
    split <;> simp [createNewStroke_trace]
  | colorChange c =>
    show (colorChangeHandler st c).trace = st.trace
    unfold colorChangeHandler
    dsimp only
    split <;> simp [createNewStroke_trace]

lemma applyDeviceEvent_recordedData (st : State) (ev : DeviceEvent) :
    (applyDeviceEvent st ev).recordedData = st.recordedData := by
  cases ev with
  | motion e =>
    show (onDeviceMotion st e).recordedData = st.recordedData
    unfold onDeviceMotion
    repeat' split
    all_goals rfl
  | orientation a b g => rfl
  | paintToggle =>
    show (paintToggleHandler st).recordedData = st.recordedData
    unfold paintToggleHandler
    dsimp only
    split <;> simp [createNewStroke_recordedData]
  | colorChange c =>
    show (colorChangeHandler st c).recordedData = st.recordedData
    unfold colorChangeHandler
    dsimp only
    split <;> simp [createNewStroke_recordedData]

lemma updatePhysics_LiveInv (st : State) (dt : ℝ) (hrec : st.isRecording = true)
    (hinv : LiveInv st) : LiveInv (updatePhysics st dt) := by
  obtain ⟨hfed, hrecd⟩ := hinv
  unfold updatePhysics
  dsimp only
  repeat' split
  all_goals
    constructor <;>
      simp_all [LiveInv, addPoint_fed, addPoint_trace, addPoint_recordedData,
        liveFeedOf_append, liveFeedOf, condAcc_isRecording, condAcc_isPainting,
        condAcc_energyAvg, condAcc_fed, condAcc_trace, condAcc_recordedData, hrec]

lemma liveStep_LiveInv (st : State) (inp : LiveInput) (h : LiveInv st) :
    LiveInv (liveStep st inp) := by
  cases inp with
  | event e =>
    show LiveInv (applyDeviceEvent st e)
    exact ⟨by rw [applyDeviceEvent_fed, applyDeviceEvent_trace, h.1],
      by rw [applyDeviceEvent_recordedData, applyDeviceEvent_trace, h.2]⟩
  | tick dt =>
    show LiveInv (if st.isRecording then updatePhysics st dt else st)
    split
    · exact updatePhysics_LiveInv st dt (by assumption) h
    · exact h

lemma liveRun_LiveInv (inputs : List LiveInput) : LiveInv (liveRun inputs) := by
  have h0 : LiveInv (startExperience initState) := ⟨rfl, rfl⟩
  show LiveInv (inputs.foldl liveStep (startExperience initState))
  generalize startExperience initState = st at h0 ⊢
  induction inputs generalizing st with
  | nil => exact h0
  | cons i rest ih => exact ih _ (liveStep_LiveInv st i h0)

/-- C1 (amended): provided every recorded tick whose painting flag was on
was taken with post-integration speed above the 0.1 draw threshold and with
a smoothed energy already inside [0,1], replaying the recorded log makes
exactly the same sequence of addPoint calls (point and energy) that the live
session made.  This equates the feeds only, not the stroke partition: a
paint toggle OFF and back ON between two ticks splits the live strokes
without leaving any transition in the log, so the replayed geometry can
still group the same fed points differently. -/
theorem c1_replay_feeds_match (inputs : List LiveInput)
    (h : ∀ pr ∈ (liveRun inputs).trace, pr.1.isPainting = true →
      (0.1 < pr.2 ∧ 0 ≤ pr.1.energy ∧ pr.1.energy ≤ 1)) :
    (replayAll (liveRun inputs) (liveRun inputs).recordedData).fed
      = (liveRun inputs).fed := by
  obtain ⟨hfed, hrecd⟩ := liveRun_LiveInv inputs
  show ((liveRun inputs).recordedData.foldl replayStep
    (replayExperience (liveRun inputs))).fed = _
  rw [foldl_replayStep_fed, replayExperience_fed, List.nil_append, hrecd, hfed,
    List.filterMap_map]
  unfold liveFeedOf
  apply List.filterMap_congr
  intro pr hpr
  by_cases hp : pr.1.isPainting = true
  · obtain ⟨hv, h0, h1⟩ := h pr hpr hp
    simp [Function.comp, hp, hv, clamp_eq_self h0 h1]
  · have hpf : pr.1.isPainting = false := by
      cases hval : pr.1.isPainting
      · rfl
      · exact absurd hval hp
    simp [Function.comp, hpf]

lemma processWorldAcc_vzero (r : ℝ) : processWorldAcc vzero r = vzero := by
  unfold processWorldAcc
  split
  · rfl
  · simp

/-- A tick with zero filtered acceleration, no pending raw sample and zero
velocity while recording: a log entry with the current position and smoothed
energy is recorded, and nothing is fed to the Stroke Store (the post-tick
speed is 0, under the 0.1 draw threshold). -/
lemma updatePhysics_quiet_instr (st : State) (dt : ℝ) (hacc : st.acc = vzero)
    (hla : st.latestAcc = none) (hvel : st.vel = vzero) (hrec : st.isRecording = true) :
    (updatePhysics st dt).recordedData = st.recordedData ++
      [⟨st.pos, st.energyAvg, st.isPainting, st.currentColor, dt⟩] ∧
    (updatePhysics st dt).fed = st.fed := by
  have h02 : (0:ℝ) < 0.2 := by norm_num
  have h01 : ¬ (0.1:ℝ) < 0 := by norm_num
  unfold updatePhysics
  dsimp only
  rw [condAcc_quiet st hacc hla]
  repeat' split
  all_goals constructor
  all_goals
    simp_all [addPoint_recordedData, addPoint_fed, applyQuaternion_vzero,
      processWorldAcc_vzero, smul_vzero, vadd_vzero, vzero_vadd, vlen_vzero]
  all_goals
    rename_i hcon
    exact absurd hcon.2 (by norm_num)

/-- A minimal live session: start recording and let one quiet animation tick
pass. -/
def quietLive : List LiveInput := [LiveInput.tick (1/30)]

lemma quietLive_eval :
    (liveRun quietLive).recordedData = [⟨vzero, 0, true, 0x00ffff, 1/30⟩] ∧
    (liveRun quietLive).fed = [] := by
  have h0 : liveRun quietLive = updatePhysics (startExperience initState) (1/30) := rfl
  have h := updatePhysics_quiet_instr (startExperience initState) (1/30) rfl rfl rfl rfl
  rw [h0]
  constructor
  · rw [h.1]
    rfl
  · exact h.2

/-- C1 counterexample: replay does not feed the same point sequence into the
Stroke Store as the live session.  In a recorded session consisting of one
quiet tick, the live session feeds nothing (the speed never exceeds the 0.1
draw threshold, which replay does not re-check), while replaying its log
feeds one point: the replayed geometry cannot be pixel-identical to the live
(empty) one. -/
theorem c1_replay_not_pixel_identical :
    (liveRun quietLive).fed = [] ∧
    (replayAll (liveRun quietLive) (liveRun quietLive).recordedData).fed = [(vzero, 0)] ∧
    (replayAll (liveRun quietLive) (liveRun quietLive).recordedData).fed
      ≠ (liveRun quietLive).fed := by
  obtain ⟨hrecd, hfed⟩ := quietLive_eval
  have hrep : (replayAll (liveRun quietLive) (liveRun quietLive).recordedData).fed
      = [(vzero, 0)] := by
    show ((liveRun quietLive).recordedData.foldl replayStep
      (replayExperience (liveRun quietLive))).fed = _
    rw [foldl_replayStep_fed, replayExperience_fed, List.nil_append, hrecd]
    rfl
  exact ⟨hfed, hrep, by rw [hrep, hfed]; simp⟩

/-- Concrete log entries for the 50/10/50 replay scenario: painting on in
cyan, painting off, painting on in magenta. -/
def c7entryA : LogEntry := ⟨vzero, 0, true, 0x00ffff, 1/30⟩

def c7entryB : LogEntry := ⟨vzero, 0, false, 0x00ffff, 1/30⟩

def c7entryC : LogEntry := ⟨vzero, 0, true, 0xff00ff, 1/30⟩

theorem c7_replay_scenario_witness :
    (replayAll initState (List.replicate 50 c7entryA ++ List.replicate 10 c7entryB
        ++ List.replicate 50 c7entryC)).strokes.length = 2 ∧
      (replayAll initState (List.replicate 50 c7entryA ++ List.replicate 10 c7entryB
        ++ List.replicate 50 c7entryC)).strokes.map Stroke.color = [0x00ffff, 0xff00ff] ∧
      (∀ s ∈ (replayAll initState (List.replicate 50 c7entryA ++ List.replicate 10 c7entryB
        ++ List.replicate 50 c7entryC)).strokes, s.points.length ≤ 50) ∧
      (replayAll initState (List.replicate 50 c7entryA
        ++ List.replicate 10 c7entryB)).strokes
        = (replayAll initState (List.replicate 50 c7entryA)).strokes :=
  c7_replay_scenario initState _ _ _ (by simp) (by simp) (by simp)
    (by intro e he
        rw [List.eq_of_mem_replicate he]
        exact ⟨rfl, rfl⟩)
    (by intro e he
        rw [List.eq_of_mem_replicate he]
        exact rfl)
    (by intro e he
        rw [List.eq_of_mem_replicate he]
        exact ⟨rfl, rfl⟩)

/-! ## The energy-clamp invariant of a live session -/

/-- Every energy stored in the Stroke Store lies in [0,1]. -/
def EnergyBounds (st : State) : Prop :=
  ∀ s ∈ st.strokes, ∀ e ∈ s.energies, 0 ≤ e ∧ e ≤ 1

lemma energyBounds_of_strokes_eq (a b : State) (h : a.strokes = b.strokes)
    (hb : EnergyBounds b) : EnergyBounds a := by
  intro s hs
  exact hb s (h ▸ hs)

lemma condAcc_strokes (st : State) : (condAcc st).strokes = st.strokes := by
  unfold condAcc
  split <;> rfl

lemma createNewStroke_energyBounds (st : State) (hb : EnergyBounds st) :
    EnergyBounds (createNewStroke st) := by
  unfold createNewStroke
  split
  · exact hb
  · intro s hs e he
    simp only [List.mem_append, List.mem_singleton] at hs
    rcases hs with hs | hs
    · exact hb s hs e he
    · subst hs
      simp at he

lemma addPoint_energyBounds (st : State) (p : Vec3) (e : ℝ) (hb : EnergyBounds st)
    (he0 : 0 ≤ e) (he1 : e ≤ 1) : EnergyBounds (addPoint st p e) := by
  rcases List.eq_nil_or_concat st.strokes with hnil | ⟨ss, s, hcat0⟩
  · by_cases hact : st.isRecording = true ∨ st.isReplaying = true
    · rw [addPoint_empty_active st p e hnil hact]
      intro s hs e' he'
      simp only [List.mem_singleton] at hs
      subst hs
      simp only [List.mem_singleton] at he'
      subst he'
      exact ⟨he0, he1⟩
    · push_neg at hact
      have hr : st.isRecording = false := by
        cases hx : st.isRecording
        · rfl
        · exact absurd hx hact.1
      have hrp : st.isReplaying = false := by
        cases hx : st.isReplaying
        · rfl
        · exact absurd hx hact.2
      intro s hs e' he'
      rw [addPoint_empty_inactive st p e hnil hr hrp] at hs
      exact absurd hs (List.not_mem_nil s)
  · have hcat : st.strokes = ss ++ [s] := by simpa using hcat0
    by_cases hd : 0 < s.points.length ∧ distanceTo p (lastPointOf s) < 0.3
    · rw [addPoint_reject st ss s p e hcat hd.1 hd.2]
      intro s' hs' e' he'
      exact hb s' (by simpa using hs') e' he'
    · rw [addPoint_accept st ss s p e hcat hd]
      intro s' hs' e' he'
      simp only [List.mem_append, List.mem_singleton] at hs'
      rcases hs' with hs' | hs'
      · exact hb s' (by rw [hcat]; exact List.mem_append_left _ hs') e' he'
      · subst hs'
        rw [updateStrokeGeometry_fst_energies] at he'
        simp only [List.mem_append, List.mem_singleton] at he'
        rcases he' with he' | he'
        · exact hb s (by rw [hcat]; exact List.mem_append_right _ (by simp)) e' he'
        · subst he'
          exact ⟨he0, he1⟩

lemma updatePhysics_energyBounds (st : State) (dt : ℝ) (hb : EnergyBounds st) :
    EnergyBounds (updatePhysics st dt) := by
  unfold updatePhysics
  dsimp only
  repeat' split
  all_goals
    first
      | exact addPoint_energyBounds _ _ _
          (energyBounds_of_strokes_eq _ st (by simp [condAcc_strokes]) hb)
          (clamp_nonneg _ _) (clamp_le_hi _ zero_le_one)
      | exact energyBounds_of_strokes_eq _ st (by simp [condAcc_strokes]) hb

lemma onDeviceMotion_strokes (st : State) (e : MotionEventData) :
    (onDeviceMotion st e).strokes = st.strokes := by
  unfold onDeviceMotion
  repeat' split
  all_goals rfl

lemma applyDeviceEvent_energyBounds (st : State) (ev : DeviceEvent) (hb : EnergyBounds st) :
    EnergyBounds (applyDeviceEvent st ev) := by
  cases ev with
  | motion e => exact energyBounds_of_strokes_eq _ st (onDeviceMotion_strokes st e) hb
  | orientation a b g => exact energyBounds_of_strokes_eq _ st rfl hb
  | paintToggle =>
    show EnergyBounds (paintToggleHandler st)
    unfold paintToggleHandler
    dsimp only
    split
    · exact createNewStroke_energyBounds _ (energyBounds_of_strokes_eq _ st rfl hb)
    · exact energyBounds_of_strokes_eq _ st rfl hb
  | colorChange c =>
    show EnergyBounds (colorChangeHandler st c)
    unfold colorChangeHandler
    dsimp only
    split
    · exact createNewStroke_energyBounds _ (energyBounds_of_strokes_eq _ st rfl hb)
    · exact energyBounds_of_strokes_eq _ st rfl hb

lemma liveStep_energyBounds (st : State) (inp : LiveInput) (hb : EnergyBounds st) :
    EnergyBounds (liveStep st inp) := by
  cases inp with
  | event e => exact applyDeviceEvent_energyBounds st e hb
  | tick dt =>
    show EnergyBounds (if st.isRecording then updatePhysics st dt else st)
    split
    · exact updatePhysics_energyBounds st dt hb
    · exact hb

lemma startExperience_energyBounds (st : State) :
    EnergyBounds (startExperience st) := by
  intro s hs e he
  have hstrokes : (startExperience st).strokes
      = [⟨[], [], st.currentColor, none, none⟩] := by
    show (createNewStroke _).strokes = _
    rw [createNewStroke_strokes_active _ (Or.inl rfl)]
    rfl
  rw [hstrokes] at hs
  simp only [List.mem_singleton] at hs
  subst hs
  simp at he

/-- C8 (amended): every energy stored in the Stroke Store during a live
recording session lies in [0,1] — updatePhysics clamps the smoothed energy
average into [0,1] before handing it to addPoint.  (During replay the
recorded energy is fed on without this clamp; see the counterexample.) -/
lemma onDeviceMotion_rot (st : State) (rr : Vec3) (hrec : st.isRecording = true) :
    onDeviceMotion st ⟨none, some rr⟩ = { st with
      rotationMag := Real.sqrt (rr.x * rr.x + rr.y * rr.y + rr.z * rr.z),
      energyAvg := st.energyAvg + 0.08 *
        (Real.sqrt (rr.x * rr.x + rr.y * rr.y + rr.z * rr.z) / 60 - st.energyAvg) } := by
  unfold onDeviceMotion
  rw [if_neg (by simp [hrec])]

lemma spin_mag : Real.sqrt ((600:ℝ) * 600 + 0 * 0 + 0 * 0) = 600 := by
  rw [show (600:ℝ) * 600 + 0 * 0 + 0 * 0 = 600 * 600 by ring]
  exact Real.sqrt_mul_self (by norm_num)

lemma spin_e1 : onDeviceMotion (startExperience initState) ⟨none, some ⟨600, 0, 0⟩⟩
    = { startExperience initState with rotationMag := 600, energyAvg := 0.8 } := by
  rw [onDeviceMotion_rot _ _ rfl]
  rw [show ((⟨600, 0, 0⟩ : Vec3).x * (⟨600, 0, 0⟩ : Vec3).x
      + (⟨600, 0, 0⟩ : Vec3).y * (⟨600, 0, 0⟩ : Vec3).y
      + (⟨600, 0, 0⟩ : Vec3).z * (⟨600, 0, 0⟩ : Vec3).z)
      = (600:ℝ) * 600 + 0 * 0 + 0 * 0 from rfl, spin_mag]
  rw [show (startExperience initState).energyAvg = 0 from rfl]
  rw [show (0:ℝ) + 0.08 * (600 / 60 - 0) = 0.8 by norm_num]

lemma spin_e2 : onDeviceMotion
    ({ startExperience initState with rotationMag := 600, energyAvg := 0.8 })
    ⟨none, some ⟨600, 0, 0⟩⟩
    = { startExperience initState with rotationMag := 600, energyAvg := 1.536 } := by
  rw [onDeviceMotion_rot _ _ rfl]
  rw [show ((⟨600, 0, 0⟩ : Vec3).x * (⟨600, 0, 0⟩ : Vec3).x
      + (⟨600, 0, 0⟩ : Vec3).y * (⟨600, 0, 0⟩ : Vec3).y
      + (⟨600, 0, 0⟩ : Vec3).z * (⟨600, 0, 0⟩ : Vec3).z)
      = (600:ℝ) * 600 + 0 * 0 + 0 * 0 from rfl, spin_mag]
  rw [show ({ startExperience initState with
      rotationMag := (600:ℝ), energyAvg := (0.8:ℝ) } : State).energyAvg = 0.8 from rfl]
  rw [show (0.8:ℝ) + 0.08 * (600 / 60 - 0.8) = 1.536 by norm_num]

/-- A session that spins the device fast (rotation rate 600 deg/s about x)
for two motion events, then takes one quiet animation tick. -/
def spinInputs : List LiveInput :=
  [.event (.motion ⟨none, some ⟨600, 0, 0⟩⟩), .event (.motion ⟨none, some ⟨600, 0, 0⟩⟩),
   .tick (1/30)]

lemma spin_recordedData :
    (liveRun spinInputs).recordedData = [⟨vzero, 1.536, true, 0x00ffff, 1/30⟩] := by
  have h0 : liveRun spinInputs = updatePhysics (onDeviceMotion (onDeviceMotion
      (startExperience initState) ⟨none, some ⟨600, 0, 0⟩⟩) ⟨none, some ⟨600, 0, 0⟩⟩)
      (1/30) := rfl
  rw [h0, spin_e1, spin_e2]
  obtain ⟨hrecd, _⟩ := updatePhysics_quiet_instr
    ({ startExperience initState with rotationMag := 600, energyAvg := 1.536 })
    (1/30) rfl rfl rfl rfl
  rw [hrecd]
  rfl

/-- C8 counterexample: during replay the stored energy is not clamped to
[0,1].  Two fast spin events push the smoothed energy average to 1.536 (the
EMA of rotationMag/60 is unbounded); the live tick records this raw value in
the log (the clamp protects only the live addPoint call), and replaying the
log stores energy 1.536 > 1 into the Stroke Store. -/
theorem c8_replay_energy_unclamped :
    ((replayAll (liveRun spinInputs) (liveRun spinInputs).recordedData).strokes.map
      (fun s => s.energies)) = [[(1.536:ℝ)]] ∧ ¬((1.536:ℝ) ≤ 1) := by
  constructor
  · show (((liveRun spinInputs).recordedData).foldl replayStep
      (replayExperience (liveRun spinInputs))).strokes.map (fun s => s.energies) = _
    rw [spin_recordedData]
    simp only [List.foldl_cons, List.foldl_nil]
    rw [replayStep_turn_on _ _ (replayExperience_isPainting _) rfl
      (Or.inr (replayExperience_isReplaying _))]
    rw [replayExperience_strokes]
    rfl
  · norm_num

lemma liveRun_energyBounds (inputs : List LiveInput) : EnergyBounds (liveRun inputs) := by
  show EnergyBounds (inputs.foldl liveStep (startExperience initState))
  have h0 := startExperience_energyBounds initState
  generalize startExperience initState = st at h0 ⊢
  induction inputs generalizing st with
  | nil => exact h0
  | cons i rest ih => exact ih _ (liveStep_energyBounds st i h0)

theorem c8_live_energy_clamped (inputs : List LiveInput) (s : Stroke) (e : ℝ)
    (hs : s ∈ (liveRun inputs).strokes) (he : e ∈ s.energies) : 0 ≤ e ∧ e ≤ 1 :=
  liveRun_energyBounds inputs s hs e he

/-- The state right after startExperience on the fresh object, written out. -/
def S0lit : State :=
  { pos := vzero, vel := vzero, acc := vzero, accLowPass := vzero,
    orientation := quatIdentity, energyAvg := 0, rotationMag := 0, latestAcc := none,
    stillnessFrames := 0, recordedData := [],
    strokes := [⟨[], [], 0x00ffff, none, none⟩], isPainting := true,
    currentColor := 0x00ffff, isRecording := true, isReplaying := false,
    lastSide := none, fed := [], trace := [] }

lemma startExperience_initState_eq : startExperience initState = S0lit := rfl

/-- A session with one raw acceleration sample followed by one animation
tick: the device is pushed along x hard enough to beat the deadzone. -/
def accPush : List LiveInput :=
  [.event (.motion ⟨some ⟨1, 0, 0⟩, none⟩), .tick (1/30)]

lemma accPush_unfold : liveRun accPush
    = updatePhysics ({ S0lit with latestAcc := some ⟨1, 0, 0⟩ }) (1/30) := rfl

lemma accPush_condAcc : condAcc ({ S0lit with latestAcc := some ⟨1, 0, 0⟩ })
    = { S0lit with
        accLowPass := ⟨0.05, 0, 0⟩, acc := ⟨2.85, 0, 0⟩, latestAcc := none } := by
  unfold condAcc S0lit
  dsimp only
  rw [if_pos (show List.length ([] : List LogEntry) < 100 by simp)]
  simp only [lerp, vsub, vzero, State.mk.injEq, Vec3.mk.injEq]
  norm_num

lemma processWorldAcc_xpos (t r : ℝ) (ht : deadzone ≤ t) :
    processWorldAcc ⟨t, 0, 0⟩ r = ⟨t - deadzone * 0.8, 0, 0⟩ := by
  have h0 : (0:ℝ) < t := lt_of_lt_of_le (by norm_num [deadzone]) ht
  have hne : t ≠ 0 := ne_of_gt h0
  have hl : vlen ⟨t, 0, 0⟩ = t := by
    rw [vlen_xaxis]
    exact abs_of_pos h0
  unfold processWorldAcc threeNormalize
  rw [if_neg (show ¬isStationaryJudge ⟨t, 0, 0⟩ r from
    fun hc => absurd hc.1 (by rw [hl]; exact not_lt.mpr ht))]
  rw [hl, if_neg hne]
  have hcomp : smul t⁻¹ (⟨t, 0, 0⟩ : Vec3) = ⟨1, 0, 0⟩ := by
    simp only [smul, mul_zero]
    rw [inv_mul_cancel₀ hne]
  rw [hcomp]
  simp [smul]

/-- The state the accPush session's tick reaches just before its addPoint
call: accelerated to speed 3.266, moved to x = 13.064, one log entry
recorded and the matching trace entry written. -/
def tickState : State :=
  { pos := ⟨13.064, 0, 0⟩, vel := ⟨3.266, 0, 0⟩, acc := ⟨2.85, 0, 0⟩,
    accLowPass := ⟨0.05, 0, 0⟩, orientation := quatIdentity, energyAvg := 0,
    rotationMag := 0, latestAcc := none, stillnessFrames := 0,
    recordedData := [⟨⟨13.064, 0, 0⟩, 0, true, 0x00ffff, 1/30⟩],
    strokes := [⟨[], [], 0x00ffff, none, none⟩], isPainting := true,
    currentColor := 0x00ffff, isRecording := true, isReplaying := false,
    lastSide := none, fed := [],
    trace := [(⟨⟨13.064, 0, 0⟩, 0, true, 0x00ffff, 1/30⟩, 3.266)] }

lemma accPush_state : liveRun accPush = addPoint tickState ⟨13.064, 0, 0⟩ 0 := by
  rw [accPush_unfold]
  unfold updatePhysics
  dsimp only
  rw [accPush_condAcc]
  unfold S0lit
  dsimp only
  rw [applyQuaternion_identity]
  rw [if_neg (show ¬isStationaryJudge ⟨(2.85:ℝ), 0, 0⟩ 0 from
    fun hc => absurd hc.1 (by
      rw [vlen_xaxis, show |(2.85:ℝ)| = 2.85 from abs_of_pos (by norm_num)]
      norm_num [deadzone]))]
  rw [processWorldAcc_xpos 2.85 0 (by norm_num [deadzone])]
  rw [show (2.85:ℝ) - deadzone * 0.8 = 2.13 by norm_num [deadzone]]
  dsimp only
  rw [show smul ((1:ℝ) / 30 * 50) (⟨2.13, 0, 0⟩ : Vec3) = ⟨3.55, 0, 0⟩ by
    simp only [smul, Vec3.mk.injEq]
    norm_num]
  rw [vzero_vadd ⟨3.55, 0, 0⟩]
  rw [show smul (0.92:ℝ) (⟨3.55, 0, 0⟩ : Vec3) = ⟨3.266, 0, 0⟩ by
    simp only [smul, Vec3.mk.injEq]
    norm_num]
  rw [if_neg (show ¬vlen (⟨(3.266:ℝ), 0, 0⟩ : Vec3) < 0.2 by
    rw [vlen_xaxis, show |(3.266:ℝ)| = 3.266 from abs_of_pos (by norm_num)]
    norm_num)]
  rw [show smul ((1:ℝ) / 30 * 120) (⟨3.266, 0, 0⟩ : Vec3) = ⟨13.064, 0, 0⟩ by
    simp only [smul, Vec3.mk.injEq]
    norm_num]
  rw [vzero_vadd ⟨13.064, 0, 0⟩]
  rw [show clamp (0:ℝ) 0 1 = 0 from clamp_eq_self le_rfl zero_le_one]
  rw [if_pos rfl]
  dsimp only
  rw [if_pos (show true = true ∧ (0.1:ℝ) < vlen ⟨3.266, 0, 0⟩ from ⟨rfl, by
    rw [vlen_xaxis, show |(3.266:ℝ)| = 3.266 from abs_of_pos (by norm_num)]
    norm_num⟩)]
  rw [show vlen (⟨(3.266:ℝ), 0, 0⟩ : Vec3) = 3.266 by
    rw [vlen_xaxis]
    exact abs_of_pos (by norm_num)]
  rfl

lemma accPush_strokes : (liveRun accPush).strokes
    = [⟨[⟨13.064, 0, 0⟩], [(0:ℝ)], 0x00ffff, none, none⟩] := by
  rw [accPush_state]
  rw [addPoint_accept _ [] ⟨[], [], 0x00ffff, none, none⟩ ⟨13.064, 0, 0⟩ 0 rfl
    (by simp [lastPointOf])]
  dsimp only
  rw [updateStrokeGeometry_lt_two _ _ (by simp)]
  simp

/-- The accPush session's instrumentation: the tick's trace entry carries
post-tick speed 3.266 and recorded energy 0, and the live feed holds exactly
the one painted point. -/
lemma accPush_instr :
    (liveRun accPush).trace
        = [(⟨⟨13.064, 0, 0⟩, 0, true, 0x00ffff, 1/30⟩, (3.266:ℝ))] ∧
    (liveRun accPush).fed = [(⟨13.064, 0, 0⟩, (0:ℝ))] ∧
    (liveRun accPush).recordedData = [⟨⟨13.064, 0, 0⟩, 0, true, 0x00ffff, 1/30⟩] := by
  rw [accPush_state]
  refine ⟨?_, ?_, ?_⟩
  · rw [addPoint_trace]
    rfl
  · rw [addPoint_fed]
    rfl
  · rw [addPoint_recordedData]
    rfl

/-- The accPush session is a non-vacuous instance of the feed equivalence:
its trace holds one painting tick, taken at speed 3.266 > 0.1 with energy
0 ∈ [0,1], the live session fed one point, and replaying its log feeds
exactly that point. -/
theorem c1_replay_feeds_match_witness :
    (liveRun accPush).trace
        = [(⟨⟨13.064, 0, 0⟩, 0, true, 0x00ffff, 1/30⟩, (3.266:ℝ))] ∧
    (∀ pr ∈ (liveRun accPush).trace, pr.1.isPainting = true →
      (0.1 < pr.2 ∧ 0 ≤ pr.1.energy ∧ pr.1.energy ≤ 1)) ∧
    (liveRun accPush).fed = [(⟨13.064, 0, 0⟩, (0:ℝ))] ∧
    (replayAll (liveRun accPush) (liveRun accPush).recordedData).fed
      = (liveRun accPush).fed := by
  obtain ⟨htr, hfed, _⟩ := accPush_instr
  have hyp : ∀ pr ∈ (liveRun accPush).trace, pr.1.isPainting = true →
      (0.1 < pr.2 ∧ 0 ≤ pr.1.energy ∧ pr.1.energy ≤ 1) := by
    intro pr hpr _
    rw [htr, List.mem_singleton] at hpr
    subst hpr
    exact ⟨by norm_num, le_rfl, zero_le_one⟩
  exact ⟨htr, hyp, hfed, c1_replay_feeds_match accPush hyp⟩

/-- The energy stored by the accPush session is 0, inside [0,1]. -/
theorem c8_live_energy_clamped_witness :
    (⟨[⟨13.064, 0, 0⟩], [(0:ℝ)], 0x00ffff, none, none⟩ : Stroke)
        ∈ (liveRun accPush).strokes ∧
      (0:ℝ) ∈ (⟨[⟨13.064, 0, 0⟩], [(0:ℝ)], 0x00ffff, none, none⟩ : Stroke).energies ∧
      (0 ≤ (0:ℝ) ∧ (0:ℝ) ≤ 1) := by
  have hs : (⟨[⟨13.064, 0, 0⟩], [(0:ℝ)], 0x00ffff, none, none⟩ : Stroke)
      ∈ (liveRun accPush).strokes := by
    rw [accPush_strokes]
    exact List.mem_singleton.mpr rfl
  have he : (0:ℝ)
      ∈ (⟨[⟨13.064, 0, 0⟩], [(0:ℝ)], 0x00ffff, none, none⟩ : Stroke).energies :=
    List.mem_singleton.mpr rfl
  exact ⟨hs, he, c8_live_energy_clamped accPush _ _ hs he⟩

end Motion
